import Mathlib

/-!
# Cinderella Bounty — verification of the game-state engine

Shallow embedding of `src/actions/db/cinderella-actions.ts` over an explicit
database state.  Tables become lists of rows; each server action becomes a
function `args → DBState → ActionResult × DBState`.  SQL queries are
translated to the corresponding list operations:

* `findFirst where c`            → `List.find?`
* `findMany where c` / `filter`  → `List.filter`
* `insert`                       → list append (insertion order preserved)
* `update ... where c`           → `List.map` over the rows, rewriting matches
* `MAX(amount)`                  → fold with `max` (`none` on an empty set,
  matching SQL `NULL`, and the JS `|| 0` coalescing is `Option.getD 0`)

Timestamps are `Nat` (`new Date()` becomes an explicit `now` parameter of
`placeBidAction`); monetary amounts (`numeric(10,2)`) are `Int` (cents).
Row ids generated by the database (`gen_random_uuid()`) are modelled by a
`nextId : Nat` counter in the state.  The TypeScript actions report failures
as `ActionState` values carrying only a message; the error taxonomy of the
specification (§7) assigns each failure branch a kind, recorded here in
`ErrKind` so that claims about error classes can be stated.
-/

/-- Category of a pick, `pick_type` enum in `cinderella-schema.ts`. -/
inductive PickType where
  | cinderella
  | favorite
  deriving DecidableEq, Repr

/-- `auction_status` enum: `scheduled`, `open`, `closed`. -/
inductive AuctionStatus where
  | scheduled
  | open'
  | closed
  deriving DecidableEq, Repr

/-- `trade_status` enum: `pending`, `accepted`, `rejected`, `canceled`. -/
inductive TradeStatus where
  | pending
  | accepted
  | rejected
  | canceled
  deriving DecidableEq, Repr

/-- Error taxonomy of spec §7 for classified failure results. -/
inductive ErrKind where
  | validation
  | stateConflict
  | notFound
  | concurrency
  deriving DecidableEq, Repr

/-- `ActionState<T>`: success flag plus human-readable message.  Failures
additionally carry the §7 error kind of the branch that produced them. -/
inductive ActionResult where
  | ok (message : String)
  | err (kind : ErrKind) (message : String)
  deriving DecidableEq, Repr

/-- Whether a result reports success (`isSuccess`). -/
def ActionResult.isOk : ActionResult → Bool
  | .ok _ => true
  | .err _ _ => false

/-- The error kind of a failure result, `none` on success. -/
def ActionResult.errKind : ActionResult → Option ErrKind
  | .ok _ => none
  | .err k _ => some k

/-- A row of `teams`: id, display name, seed. -/
structure Team where
  id : String
  name : String
  seed : Nat
  deriving DecidableEq, Repr

/-- A row of `picks`: owning user, team, category at pick time. -/
structure Pick where
  userId : String
  teamId : String
  type : PickType
  deriving DecidableEq, Repr

/-- A row of `auctions`. -/
structure Auction where
  id : Nat
  teamId : String
  endTime : Option Nat
  status : AuctionStatus
  finalBidAmount : Option Int
  winnerUserId : Option String
  deriving DecidableEq, Repr

/-- A row of `bids` (insertion order of the list is acceptance order). -/
structure Bid where
  auctionId : Nat
  userId : String
  amount : Int
  deriving DecidableEq, Repr

/-- A row of `trades`. -/
structure Trade where
  id : Nat
  initiatorId : String
  recipientId : String
  initiatorTeamId : String
  recipientTeamId : String
  cashAmount : Int
  status : TradeStatus
  deriving DecidableEq, Repr

/-- A row of `scores` (`user_id` is the primary key). -/
structure Score where
  userId : String
  currentScore : Int
  deriving DecidableEq, Repr

/-- The whole database: one list of rows per table, plus the id generator. -/
structure DBState where
  teams : List Team
  picks : List Pick
  auctions : List Auction
  bids : List Bid
  trades : List Trade
  scores : List Score
  nextId : Nat
  deriving DecidableEq, Repr

/-- `CINDERELLA_SEEDS` from the source: valid cinderella seeds 9–16. -/
def CINDERELLA_SEEDS : List Nat := [9, 10, 11, 12, 13, 14, 15, 16]

/-- `FAVORITE_SEEDS` from the source: valid favorite seeds 1–4. -/
def FAVORITE_SEEDS : List Nat := [1, 2, 3, 4]

-- ---------------------------------------------------------------------------
-- 2) AUCTIONS & BIDS
-- ---------------------------------------------------------------------------

/-- `createAuctionAction`: inserts an auction for `teamId` with
`status = "scheduled"`; the other columns take their defaults (`NULL`). -/
def createAuctionAction (teamId : String) (s : DBState) : ActionResult × DBState :=
  (.ok "Auction created successfully",
   { s with
       auctions := s.auctions ++
         [{ id := s.nextId, teamId := teamId, endTime := none,
            status := .scheduled, finalBidAmount := none, winnerUserId := none }],
       nextId := s.nextId + 1 })

/-- The bids of one auction, in acceptance (insertion) order. -/
def bidsFor (s : DBState) (auctionId : Nat) : List Bid :=
  s.bids.filter (fun b => decide (b.auctionId = auctionId))

/-- `MAX(bids.amount)` over a list of bids: `none` when empty (SQL `NULL`). -/
def maxBidAmount (bids : List Bid) : Option Int :=
  match bids.map (fun b => b.amount) with
  | [] => none
  | x :: xs => some (xs.foldl max x)

/-- The amount-check-and-insert tail of `placeBidAction` (source steps 2–3).
`highestBid?.maxAmount || 0` coalesces SQL `NULL` to `0`; since `0 || 0` is
also `0`, this is exactly `Option.getD 0`. -/
def placeBidCheck (auctionId : Nat) (userId : String) (amount : Int)
    (s : DBState) : ActionResult × DBState :=
  let currentHighest : Int := (maxBidAmount (bidsFor s auctionId)).getD 0
  if amount ≤ currentHighest then
    (.err .validation "Your bid must exceed the current highest bid.", s)
  else
    (.ok "Bid placed successfully",
     { s with bids := s.bids ++ [{ auctionId := auctionId, userId := userId, amount := amount }] })

/-- `placeBidAction`: the whole body runs in one transaction, so every failure
leaves the state unchanged.  `now` stands for `new Date()`. -/
def placeBidAction (now : Nat) (auctionId : Nat) (userId : String) (amount : Int)
    (s : DBState) : ActionResult × DBState :=
  match s.auctions.find? (fun a => decide (a.id = auctionId)) with
  | none => (.err .notFound "Auction not found.", s)
  | some auction =>
    if auction.status ≠ .open' ∧ auction.status ≠ .scheduled then
      (.err .stateConflict "Cannot place a bid on an auction with this status.", s)
    else
      match auction.endTime with
      | some e =>
        if now > e then (.err .stateConflict "Auction has already ended.", s)
        else placeBidCheck auctionId userId amount s
      | none => placeBidCheck auctionId userId amount s

/-- One comparison step of the top-bid scan: keep the incumbent unless the
new bid is strictly higher. -/
def topBidStep : Option Bid → Bid → Option Bid
  | none, b => some b
  | some best, b => if best.amount < b.amount then some b else some best

/-- The `SELECT userId, MAX(amount) ... GROUP BY userId ORDER BY MAX DESC
LIMIT 1` of `closeAuctionAction`, as a fold returning a bid of maximal
amount.  The SQL leaves the order of distinct users with equal maxima
unspecified; this model keeps the earliest such bid, a deterministic
refinement that agrees with the SQL whenever the maximum is unique. -/
def topBid (bids : List Bid) : Option Bid :=
  bids.foldl topBidStep none

/-- `closeAuctionAction`: with no bids, only `status` is written; otherwise
`status`, `finalBidAmount` and `winnerUserId` are written. -/
def closeAuctionAction (auctionId : Nat) (s : DBState) : ActionResult × DBState :=
  match topBid (bidsFor s auctionId) with
  | none =>
    (.ok "Auction closed with no bids",
     { s with auctions := s.auctions.map (fun a =>
         if a.id = auctionId then { a with status := .closed } else a) })
  | some b =>
    (.ok "Auction closed successfully",
     { s with auctions := s.auctions.map (fun a =>
         if a.id = auctionId then
           { a with status := .closed, finalBidAmount := some b.amount,
                    winnerUserId := some b.userId }
         else a) })

-- ---------------------------------------------------------------------------
-- 1) CREATE USER PICKS
-- ---------------------------------------------------------------------------

/-- Outcome of the tally loop of `createUserPicksAction` (source step 3). -/
inductive TallyResult where
  | dup (name : String)
  | invalidSeed (name : String) (seed : Nat)
  | counts (cinderellaCount favoriteCount : Nat)
  deriving DecidableEq, Repr

/-- The `for (const team of teams)` loop: duplicate check against the seen
set first, then seed classification, aborting on the first bad team. -/
def tallyTeams : List Team → List String → Nat → Nat → TallyResult
  | [], _, c, f => .counts c f
  | t :: rest, seen, c, f =>
    if seen.contains t.id then .dup t.name
    else if CINDERELLA_SEEDS.contains t.seed then
      tallyTeams rest (t.id :: seen) (c + 1) f
    else if FAVORITE_SEEDS.contains t.seed then
      tallyTeams rest (t.id :: seen) c (f + 1)
    else .invalidSeed t.name t.seed

/-- `COUNT(*)` of picks referencing a team (contested-team detection). -/
def pickCountFor (s : DBState) (teamId : String) : Nat :=
  (s.picks.filter (fun p => decide (p.teamId = teamId))).length

/-- The existence probe `db.query.auctions.findFirst(teamId = ...)` used by
the contested-team detector before inserting an auction. -/
def auctionExistsFor (s : DBState) (teamId : String) : Bool :=
  (s.auctions.find? (fun a => decide (a.teamId = teamId))).isSome

/-- One iteration of the contested-team loop (source step 5): count picks on
the team, and if contested and no auction exists, create one. -/
def contestedStep (s : DBState) (t : Team) : DBState :=
  if pickCountFor s t.id > 1 then
    if auctionExistsFor s t.id then s else (createAuctionAction t.id s).2
  else s

/-- `createUserPicksAction`: input guard, one-shot check, team resolution,
tally, transactional insert of the four picks, then contested detection. -/
def createUserPicksAction (userId : String) (teamIds : List String)
    (s : DBState) : ActionResult × DBState :=
  if userId = "" ∨ teamIds.length ≠ 4 then
    (.err .validation "You must select exactly 4 teams: 3 cinderellas and 1 favorite.", s)
  else if (s.picks.find? (fun p => decide (p.userId = userId))).isSome then
    (.err .stateConflict "You have already made your picks. You cannot pick again.", s)
  else
    let teams := s.teams.filter (fun t => teamIds.contains t.id)
    if teams.length ≠ 4 then
      (.err .validation "One or more selected teams could not be found.", s)
    else
      match tallyTeams teams [] 0 0 with
      | .dup _ => (.err .validation "Duplicate team selection.", s)
      | .invalidSeed _ _ =>
        (.err .validation "Invalid pick: team is neither cinderella nor favorite.", s)
      | .counts cinderellaCount favoriteCount =>
        if cinderellaCount ≠ 3 ∨ favoriteCount ≠ 1 then
          (.err .validation "Invalid distribution of picks.", s)
        else
          let picksToInsert : List Pick := teams.map (fun t =>
            { userId := userId, teamId := t.id,
              type := if CINDERELLA_SEEDS.contains t.seed then .cinderella else .favorite })
          let s1 := { s with picks := s.picks ++ picksToInsert }
          let s2 := teams.foldl contestedStep s1
          (.ok "Picks created successfully", s2)

-- ---------------------------------------------------------------------------
-- 3) TRADES
-- ---------------------------------------------------------------------------

/-- `createTradeOfferAction`: ownership validation of both sides, then insert
of a `pending` trade.  No check at all is made on `cashAmount`. -/
def createTradeOfferAction (initiatorId recipientId : String)
    (initiatorTeamId recipientTeamId : String) (cashAmount : Int)
    (s : DBState) : ActionResult × DBState :=
  match s.picks.find? (fun p =>
      decide (p.userId = initiatorId ∧ p.teamId = initiatorTeamId)) with
  | none => (.err .validation "Initiator does not own the specified team.", s)
  | some _ =>
    match s.picks.find? (fun p =>
        decide (p.userId = recipientId ∧ p.teamId = recipientTeamId)) with
    | none => (.err .validation "Recipient does not own the specified team.", s)
    | some _ =>
      (.ok "Trade offer created successfully",
       { s with
           trades := s.trades ++
             [{ id := s.nextId, initiatorId := initiatorId, recipientId := recipientId,
                initiatorTeamId := initiatorTeamId, recipientTeamId := recipientTeamId,
                cashAmount := cashAmount, status := .pending }],
           nextId := s.nextId + 1 })

/-- `respondToTradeOfferAction`.  The accept path performs exactly the two
`UPDATE picks SET user_id = ... WHERE user_id = ... AND team_id = ...`
statements of the source, in order, with no ownership re-validation, then
marks the trade accepted; all inside one transaction. -/
def respondToTradeOfferAction (tradeId : Nat) (accept : Bool)
    (s : DBState) : ActionResult × DBState :=
  match s.trades.find? (fun t => decide (t.id = tradeId)) with
  | none => (.err .notFound "Trade not found", s)
  | some trade =>
    if trade.status ≠ .pending then
      (.err .stateConflict "Cannot respond to a non-pending trade.", s)
    else if !accept then
      (.ok "Trade rejected",
       { s with trades := s.trades.map (fun t =>
           if t.id = tradeId then { t with status := .rejected } else t) })
    else
      let picks1 := s.picks.map (fun p =>
        if p.userId = trade.initiatorId ∧ p.teamId = trade.initiatorTeamId then
          { p with userId := trade.recipientId }
        else p)
      let picks2 := picks1.map (fun p =>
        if p.userId = trade.recipientId ∧ p.teamId = trade.recipientTeamId then
          { p with userId := trade.initiatorId }
        else p)
      (.ok "Trade accepted",
       { s with
           picks := picks2,
           trades := s.trades.map (fun t =>
             if t.id = tradeId then { t with status := .accepted } else t) })

-- ---------------------------------------------------------------------------
-- 4) SCORING
-- ---------------------------------------------------------------------------

/-- ASCII lowercasing of the round name, `round.toLowerCase()` in the source
(round names are ASCII, where JS and `Char.toLower` agree). -/
def lowerString (str : String) : String :=
  String.mk (str.data.map Char.toLower)

/-- The `switch (round.toLowerCase())` multiplier table. -/
def roundMultiplier (round : String) : Int :=
  if lowerString round = "sweet 16" then 2
  else if lowerString round = "elite 8" then 3
  else if lowerString round = "final 4" then 4
  else if lowerString round = "championship" then 5
  else 1

/-- Base points: favorite seed → 5, otherwise the seed itself. -/
def basePointsFor (team : Team) : Int :=
  if FAVORITE_SEEDS.contains team.seed then 5 else (team.seed : Int)

/-- One iteration of the scoring loop: `INSERT ... ON CONFLICT (user_id) DO
NOTHING` of a zero row, then `UPDATE scores SET current_score =
current_score + points WHERE user_id = ...`. -/
def creditScore (points : Int) (scores : List Score) (userId : String) : List Score :=
  (if (scores.find? (fun sc => decide (sc.userId = userId))).isSome then scores
   else scores ++ [{ userId := userId, currentScore := 0 }]).map (fun sc =>
    if sc.userId = userId then { sc with currentScore := sc.currentScore + points } else sc)

/-- `updateScoresAction` (the spec's `applyRoundResult`). -/
def updateScoresAction (winningTeamId : String) (round : String)
    (s : DBState) : ActionResult × DBState :=
  match s.teams.find? (fun t => decide (t.id = winningTeamId)) with
  | none => (.err .notFound "Winning team not found", s)
  | some team =>
    let pointsAwarded := basePointsFor team * roundMultiplier round
    let relevantPicks := s.picks.filter (fun p => decide (p.teamId = winningTeamId))
    let newScores := relevantPicks.foldl
      (fun acc p => creditScore pointsAwarded acc p.userId) s.scores
    (.ok "Scores updated", { s with scores := newScores })

-- ---------------------------------------------------------------------------
-- Derived observations used by the claim statements
-- ---------------------------------------------------------------------------

/-- The accepted bid amounts of an auction, in acceptance order. -/
def amountsFor (s : DBState) (auctionId : Nat) : List Int :=
  (bidsFor s auctionId).map (fun b => b.amount)

/-- The score of a user, `none` when no row exists. -/
def scoreOf (s : DBState) (userId : String) : Option Int :=
  (s.scores.find? (fun sc => decide (sc.userId = userId))).map (fun sc => sc.currentScore)

/-- Number of auction rows referencing a team. -/
def auctionCountFor (s : DBState) (teamId : String) : Nat :=
  (s.auctions.filter (fun a => decide (a.teamId = teamId))).length

/-- The empty database, convenient base of the concrete test states. -/
def emptyState : DBState :=
  { teams := [], picks := [], auctions := [], bids := [], trades := [],
    scores := [], nextId := 0 }

example : (placeBidCheck 1 "u" 10 emptyState).1.isOk = true := by decide

-- ---------------------------------------------------------------------------
-- Generic helper lemmas
-- ---------------------------------------------------------------------------

/-- `find?` by a key that is unique across the list returns the row holding
that key.  This is the `findFirst` of a primary-key lookup. -/
theorem find_unique_key {α β : Type} [DecidableEq β] (key : α → β) :
    ∀ (l : List α) (x : α) (k : β), (l.map key).Nodup → x ∈ l → key x = k →
      l.find? (fun y => decide (key y = k)) = some x := by
  intro l
  induction l with
  | nil => intro x k _ hx; exact absurd hx (List.not_mem_nil x)
  | cons h t ih =>
    intro x k hn hx hk
    rcases List.mem_cons.mp hx with rfl | hx
    · exact List.find?_cons_of_pos _ (by simp [hk])
    · have hne : key h ≠ k := by
        intro heq
        have hmem : key x ∈ t.map key := List.mem_map_of_mem key hx
        rw [hk, ← heq] at hmem
        exact (List.nodup_cons.mp hn).1 hmem
      rw [List.find?_cons_of_neg _ (by simp [hne])]
      exact ih x k (List.nodup_cons.mp hn).2 hx hk

/-- A list `find?` is `none` exactly when no element satisfies the test. -/
theorem find_none_iff {α : Type} (p : α → Bool) (l : List α) :
    l.find? p = none ↔ ∀ x ∈ l, ¬(p x = true) := by
  constructor
  · intro h x hx hp
    have : (l.find? p).isSome := List.find?_isSome.mpr ⟨x, hx, hp⟩
    rw [h] at this
    exact Bool.noConfusion this
  · intro h
    cases hf : l.find? p with
    | none => rfl
    | some a =>
      exact absurd (List.find?_some hf) (h a (List.mem_of_find?_eq_some hf))

-- ---------------------------------------------------------------------------
-- Claim C9: closing a nonexistent auction
-- ---------------------------------------------------------------------------

/-- C9: `closeAuctionAction` called with an identifier matching no auction row
returns a success result (the "closed with no bids" report) and modifies no
row in any table.  The hypothesis on `bids` reflects the foreign key
`bids.auction_id → auctions.id`: a missing auction has no bids. -/
theorem claim_C9_close_missing_auction (s : DBState) (auctionId : Nat)
    (hna : ∀ a ∈ s.auctions, a.id ≠ auctionId)
    (hnb : ∀ b ∈ s.bids, b.auctionId ≠ auctionId) :
    (closeAuctionAction auctionId s).1 = .ok "Auction closed with no bids" ∧
      (closeAuctionAction auctionId s).2 = s := by
  have hbf : bidsFor s auctionId = [] := by
    rw [bidsFor, List.filter_eq_nil_iff]
    intro b hb
    simpa using hnb b hb
  have hmap : s.auctions.map
      (fun a => if a.id = auctionId then { a with status := .closed } else a) = s.auctions := by
    rw [show s.auctions = s.auctions.map id from (List.map_id s.auctions).symm]
    rw [List.map_map]
    apply List.map_eq_map_iff.mpr
    intro a ha
    simp [hna a ha]
  rw [closeAuctionAction, hbf]
  refine ⟨rfl, ?_⟩
  show { s with auctions := _ } = s
  rw [hmap]

/-- C9 witness: concrete run on the empty database. -/
theorem claim_C9_close_missing_auction_witness :
    (∀ a ∈ emptyState.auctions, a.id ≠ 7) ∧ (∀ b ∈ emptyState.bids, b.auctionId ≠ 7) ∧
      ((closeAuctionAction 7 emptyState).1 = .ok "Auction closed with no bids" ∧
        (closeAuctionAction 7 emptyState).2 = emptyState) :=
  ⟨by decide, by decide, claim_C9_close_missing_auction emptyState 7 (by decide) (by decide)⟩

-- ---------------------------------------------------------------------------
-- Claim C10: no validation of the cash amount of a trade offer
-- ---------------------------------------------------------------------------

/-- C10: `createTradeOfferAction` validates only team ownership.  Whenever the
two ownership probes succeed, any `cashAmount` whatsoever — including a
strictly negative one — is accepted and stored on the new `pending` trade;
no `ValidationError` is possible on account of the amount. -/
theorem claim_C10_no_cash_validation (initiatorId recipientId : String)
    (initiatorTeamId recipientTeamId : String) (cashAmount : Int) (s : DBState)
    (h1 : ∃ p ∈ s.picks, p.userId = initiatorId ∧ p.teamId = initiatorTeamId)
    (h2 : ∃ p ∈ s.picks, p.userId = recipientId ∧ p.teamId = recipientTeamId) :
    (createTradeOfferAction initiatorId recipientId initiatorTeamId recipientTeamId
        cashAmount s).1 = .ok "Trade offer created successfully" ∧
      (createTradeOfferAction initiatorId recipientId initiatorTeamId recipientTeamId
          cashAmount s).2.trades =
        s.trades ++
          [{ id := s.nextId, initiatorId := initiatorId, recipientId := recipientId,
             initiatorTeamId := initiatorTeamId, recipientTeamId := recipientTeamId,
             cashAmount := cashAmount, status := .pending }] := by
  have hf1 : (s.picks.find? (fun p =>
      decide (p.userId = initiatorId ∧ p.teamId = initiatorTeamId))).isSome := by
    apply List.find?_isSome.mpr
    obtain ⟨p, hp, hpe⟩ := h1
    exact ⟨p, hp, by simpa using hpe⟩
  have hf2 : (s.picks.find? (fun p =>
      decide (p.userId = recipientId ∧ p.teamId = recipientTeamId))).isSome := by
    apply List.find?_isSome.mpr
    obtain ⟨p, hp, hpe⟩ := h2
    exact ⟨p, hp, by simpa using hpe⟩
  rw [createTradeOfferAction]
  cases hc1 : s.picks.find? (fun p =>
      decide (p.userId = initiatorId ∧ p.teamId = initiatorTeamId)) with
  | none => rw [hc1] at hf1; exact absurd hf1 (by simp)
  | some p1 =>
    cases hc2 : s.picks.find? (fun p =>
        decide (p.userId = recipientId ∧ p.teamId = recipientTeamId)) with
    | none => rw [hc2] at hf2; exact absurd hf2 (by simp)
    | some p2 => exact ⟨rfl, rfl⟩

/-- Concrete state for the C10 witness: user A holds team X, user B holds
team Y. -/
def tradeOfferState : DBState :=
  { emptyState with
      teams := [{ id := "X", name := "X", seed := 9 }, { id := "Y", name := "Y", seed := 10 }],
      picks := [{ userId := "A", teamId := "X", type := .cinderella },
                { userId := "B", teamId := "Y", type := .cinderella }] }

/-- C10 witness: a trade offer with cash amount −5 is accepted and stored. -/
theorem claim_C10_no_cash_validation_witness :
    (∃ p ∈ tradeOfferState.picks, p.userId = "A" ∧ p.teamId = "X") ∧
      (∃ p ∈ tradeOfferState.picks, p.userId = "B" ∧ p.teamId = "Y") ∧
      ((createTradeOfferAction "A" "B" "X" "Y" (-5) tradeOfferState).1 =
          .ok "Trade offer created successfully" ∧
        (createTradeOfferAction "A" "B" "X" "Y" (-5) tradeOfferState).2.trades =
          tradeOfferState.trades ++
            [{ id := tradeOfferState.nextId, initiatorId := "A", recipientId := "B",
               initiatorTeamId := "X", recipientTeamId := "Y", cashAmount := -5,
               status := .pending }]) :=
  ⟨by decide, by decide,
    claim_C10_no_cash_validation "A" "B" "X" "Y" (-5) tradeOfferState (by decide) (by decide)⟩

-- ---------------------------------------------------------------------------
-- Claim C1: the accept path never re-validates ownership (code bug)
-- ---------------------------------------------------------------------------

/-- State in which the initiator A of the pending trade 0 (A gives X, B gives
Y) no longer holds any pick on X — e.g. X was traded away or lost at auction
after the offer was made.  Only B's pick on Y exists. -/
def staleTradeState : DBState :=
  { emptyState with
      teams := [{ id := "X", name := "X", seed := 9 }, { id := "Y", name := "Y", seed := 10 }],
      picks := [{ userId := "B", teamId := "Y", type := .cinderella }],
      trades := [{ id := 0, initiatorId := "A", recipientId := "B", initiatorTeamId := "X",
                   recipientTeamId := "Y", cashAmount := 0, status := .pending }] }

/-- C1: evaluation of the code at the failing input.  The source's accept path
(`respondToTradeOfferAction`, src lines 507–535) contains no ownership
re-check at all: accepting the stale trade succeeds, marks the trade
`accepted` (not `pending`), and reassigns B's pick on Y to A — the claimed
`ConcurrencyError` path does not exist in the code. -/
theorem claim_C1_accept_skips_revalidation :
    (respondToTradeOfferAction 0 true staleTradeState).1 = .ok "Trade accepted" ∧
      (respondToTradeOfferAction 0 true staleTradeState).2.trades =
        [{ id := 0, initiatorId := "A", recipientId := "B", initiatorTeamId := "X",
           recipientTeamId := "Y", cashAmount := 0, status := .accepted }] ∧
      (respondToTradeOfferAction 0 true staleTradeState).2.picks =
        [{ userId := "A", teamId := "Y", type := .cinderella }] := by decide

-- ---------------------------------------------------------------------------
-- Claim C5: contested-team detection is not race-safe (code bug)
-- ---------------------------------------------------------------------------

/-- State right after two users' pick batches for team X have both been
committed, before either submission's contested-team loop has run: X has two
picks and no auction. -/
def contestedRaceState : DBState :=
  { emptyState with
      teams := [{ id := "X", name := "X", seed := 9 }],
      picks := [{ userId := "A", teamId := "X", type := .cinderella },
                { userId := "B", teamId := "X", type := .cinderella }] }

/-- C5: evaluation of the code at the failing interleaving.  The detector in
`createUserPicksAction` (src lines 167–186) is a plain read-then-insert —
`findFirst` on `auctions`, then `createAuctionAction` — and the migration
defines no uniqueness constraint on `auctions.team_id`.  Both concurrent
submissions observe pick count 2 and no existing auction on the same
snapshot; both then insert, and the database accepts two auction rows for
team X, violating the claimed at-most-one invariant. -/
theorem claim_C5_duplicate_auction_race :
    pickCountFor contestedRaceState "X" = 2 ∧
      auctionExistsFor contestedRaceState "X" = false ∧
      auctionCountFor
        (createAuctionAction "X" (createAuctionAction "X" contestedRaceState).2).2 "X" = 2 := by
  decide

-- ---------------------------------------------------------------------------
-- Claim C8: trade response frame effect
-- ---------------------------------------------------------------------------

/-- State for the C8 counterexample: A and B both hold the contested team X,
and A has offered B a trade X-for-X.  Both parties hold their named team, so
the claim asserts that acceptance swaps exactly the two rows — leaving each
of A and B with one pick on X. -/
def sameTeamTradeState : DBState :=
  { emptyState with
      teams := [{ id := "X", name := "X", seed := 9 }],
      picks := [{ userId := "A", teamId := "X", type := .cinderella },
                { userId := "B", teamId := "X", type := .cinderella }],
      trades := [{ id := 0, initiatorId := "A", recipientId := "B", initiatorTeamId := "X",
                   recipientTeamId := "X", cashAmount := 0, status := .pending }] }

/-- C8 counterexample: accepting the X-for-X trade does not swap the two
named rows.  The first sequential `UPDATE` hands A's pick on X to B; the
second then matches both of B's picks on X and hands both to A.  The result
is accepted with recipient B holding no pick at all, contradicting the
claimed reassignment of the initiator's pick to the recipient. -/
theorem claim_C8_counterexample :
    (respondToTradeOfferAction 0 true sameTeamTradeState).1 = .ok "Trade accepted" ∧
      ((respondToTradeOfferAction 0 true sameTeamTradeState).2.picks.filter
          (fun p => decide (p.userId = "B"))).length = 0 ∧
      (respondToTradeOfferAction 0 true sameTeamTradeState).2.picks =
        [{ userId := "A", teamId := "X", type := .cinderella },
         { userId := "A", teamId := "X", type := .cinderella }] := by decide

/-- The specification's simultaneous description of the accept swap: the
initiator's rows on the initiator's team go to the recipient, the
recipient's rows on the recipient's team go to the initiator, and every
other row is untouched. -/
def swapPick (trade : Trade) (p : Pick) : Pick :=
  if p.userId = trade.initiatorId ∧ p.teamId = trade.initiatorTeamId then
    { p with userId := trade.recipientId }
  else if p.userId = trade.recipientId ∧ p.teamId = trade.recipientTeamId then
    { p with userId := trade.initiatorId }
  else p

/-- The first `UPDATE` of the accept path: the initiator's rows on the
initiator's team go to the recipient. -/
def tradeUpdate1 (trade : Trade) (p : Pick) : Pick :=
  if p.userId = trade.initiatorId ∧ p.teamId = trade.initiatorTeamId then
    { p with userId := trade.recipientId }
  else p

/-- The second `UPDATE` of the accept path: the recipient's rows on the
recipient's team go to the initiator. -/
def tradeUpdate2 (trade : Trade) (p : Pick) : Pick :=
  if p.userId = trade.recipientId ∧ p.teamId = trade.recipientTeamId then
    { p with userId := trade.initiatorId }
  else p

/-- When the two teams of the trade are distinct, the source's two sequential
pick updates compose to the simultaneous swap. -/
theorem sequential_updates_eq_swapPick (trade : Trade) (p : Pick)
    (hne : trade.initiatorTeamId ≠ trade.recipientTeamId) :
    tradeUpdate2 trade (tradeUpdate1 trade p) = swapPick trade p := by
  by_cases h1 : p.userId = trade.initiatorId ∧ p.teamId = trade.initiatorTeamId
  · obtain ⟨h1a, h1b⟩ := h1
    simp [tradeUpdate1, tradeUpdate2, swapPick, h1a, h1b, hne]
  · rw [tradeUpdate1, if_neg h1, swapPick, if_neg h1, tradeUpdate2]

/-- Reduction of `respondToTradeOfferAction` once the trade lookup has
resolved to a pending trade. -/
theorem respondToTradeOfferAction_found (tradeId : Nat) (accept : Bool)
    (s : DBState) (trade : Trade)
    (hfind : s.trades.find? (fun t => decide (t.id = tradeId)) = some trade)
    (hpend : trade.status = .pending) :
    respondToTradeOfferAction tradeId accept s =
      if !accept then
        (.ok "Trade rejected",
         { s with trades := s.trades.map (fun t =>
             if t.id = tradeId then { t with status := .rejected } else t) })
      else
        (.ok "Trade accepted",
         { s with
             picks := (s.picks.map (fun p =>
               if p.userId = trade.initiatorId ∧ p.teamId = trade.initiatorTeamId then
                 { p with userId := trade.recipientId }
               else p)).map (fun p =>
                 if p.userId = trade.recipientId ∧ p.teamId = trade.recipientTeamId then
                   { p with userId := trade.initiatorId }
                 else p),
             trades := s.trades.map (fun t =>
               if t.id = tradeId then { t with status := .accepted } else t) }) := by
  rw [respondToTradeOfferAction, hfind]
  show (if trade.status ≠ .pending then
      ((.err .stateConflict "Cannot respond to a non-pending trade.", s) : ActionResult × DBState)
    else _) = _
  rw [if_neg (by rw [hpend]; simp)]

/-- C8 (amended): for a pending trade whose two named teams are distinct,
rejecting sets the trade `rejected` and changes no pick row, while accepting
sets it `accepted` and rewrites the picks table pointwise by `swapPick`:
the initiator's rows on the initiator's team go to the recipient, the
recipient's rows on the recipient's team go to the initiator — exactly the
two named rows when each party holds one — and no other pick row, team,
auction, bid, or score is modified. -/
theorem claim_C8_trade_response_effects (s : DBState) (tradeId : Nat)
    (trade : Trade) (accept : Bool)
    (hn : (s.trades.map (fun t => t.id)).Nodup)
    (ht : trade ∈ s.trades) (hid : trade.id = tradeId)
    (hpend : trade.status = .pending)
    (hne : trade.initiatorTeamId ≠ trade.recipientTeamId) :
    (respondToTradeOfferAction tradeId accept s).1.isOk = true ∧
      (respondToTradeOfferAction tradeId accept s).2.teams = s.teams ∧
      (respondToTradeOfferAction tradeId accept s).2.auctions = s.auctions ∧
      (respondToTradeOfferAction tradeId accept s).2.bids = s.bids ∧
      (respondToTradeOfferAction tradeId accept s).2.scores = s.scores ∧
      (respondToTradeOfferAction tradeId accept s).2.trades =
        s.trades.map (fun t =>
          if t.id = tradeId then
            { t with status := if accept then .accepted else .rejected }
          else t) ∧
      (respondToTradeOfferAction tradeId accept s).2.picks =
        (if accept then s.picks.map (swapPick trade) else s.picks) := by
  have hfind : s.trades.find? (fun t => decide (t.id = tradeId)) = some trade :=
    find_unique_key (fun t => t.id) s.trades trade tradeId hn ht hid
  have hred := respondToTradeOfferAction_found tradeId accept s trade hfind hpend
  cases accept with
  | false =>
    rw [hred, if_pos (by decide)]
    exact ⟨rfl, rfl, rfl, rfl, rfl, rfl, rfl⟩
  | true =>
    rw [hred, if_neg (by decide)]
    refine ⟨rfl, rfl, rfl, rfl, rfl, rfl, ?_⟩
    show (s.picks.map _).map _ = s.picks.map (swapPick trade)
    rw [List.map_map]
    apply List.map_eq_map_iff.mpr
    intro p _
    exact sequential_updates_eq_swapPick trade p hne

/-- Concrete state for the C8 witness: A holds X, B holds Y, and trade 0
offers X for Y. -/
def distinctTradeState : DBState :=
  { tradeOfferState with
      trades := [{ id := 0, initiatorId := "A", recipientId := "B", initiatorTeamId := "X",
                   recipientTeamId := "Y", cashAmount := 0, status := .pending }] }

/-- C8 witness: accepting trade 0 of `distinctTradeState` swaps the two pick
rows and touches nothing else. -/
theorem claim_C8_trade_response_effects_witness :
    (distinctTradeState.trades.map (fun t => t.id)).Nodup ∧
      ((respondToTradeOfferAction 0 true distinctTradeState).1.isOk = true ∧
        (respondToTradeOfferAction 0 true distinctTradeState).2.teams = distinctTradeState.teams ∧
        (respondToTradeOfferAction 0 true distinctTradeState).2.auctions = distinctTradeState.auctions ∧
        (respondToTradeOfferAction 0 true distinctTradeState).2.bids = distinctTradeState.bids ∧
        (respondToTradeOfferAction 0 true distinctTradeState).2.scores = distinctTradeState.scores ∧
        (respondToTradeOfferAction 0 true distinctTradeState).2.trades =
          distinctTradeState.trades.map (fun t =>
            if t.id = 0 then
              { t with status := if true then TradeStatus.accepted else TradeStatus.rejected }
            else t) ∧
        (respondToTradeOfferAction 0 true distinctTradeState).2.picks =
          (if true then
            distinctTradeState.picks.map (swapPick
              { id := 0, initiatorId := "A", recipientId := "B", initiatorTeamId := "X",
                recipientTeamId := "Y", cashAmount := 0, status := .pending })
          else distinctTradeState.picks)) :=
  ⟨by decide,
    claim_C8_trade_response_effects distinctTradeState 0
      { id := 0, initiatorId := "A", recipientId := "B", initiatorTeamId := "X",
        recipientTeamId := "Y", cashAmount := 0, status := .pending }
      true (by decide) (by decide) (by decide) (by decide) (by decide)⟩

-- ---------------------------------------------------------------------------
-- Claim C6: scoring
-- ---------------------------------------------------------------------------

/-- State for the C6 counterexample: favorite team F (seed 1) held by A. -/
def mixedCaseRoundState : DBState :=
  { emptyState with
      teams := [{ id := "F", name := "Fav", seed := 1 }],
      picks := [{ userId := "A", teamId := "F", type := .favorite }] }

/-- C6 counterexample: the multiplier table is keyed on the lowercased round
name (`round.toLowerCase()` in the source), so the round name "Sweet 16" —
which is not the literal string "sweet 16" and therefore falls under the
claim's "any other round name → ×1" — is awarded ×2: holder A receives
10 points, not the claimed 5 × 1 = 5. -/
theorem claim_C6_counterexample :
    scoreOf (updateScoresAction "F" "Sweet 16" mixedCaseRoundState).2 "A" = some 10 ∧
      scoreOf (updateScoresAction "F" "Sweet 16" mixedCaseRoundState).2 "A" ≠ some 5 := by
  decide

-- ---------------------------------------------------------------------------
-- Claim C7: placeBid state errors
-- ---------------------------------------------------------------------------

/-- The amount check of `placeBidAction` produces either a `ValidationError`
or a success — never a state or not-found error. -/
theorem placeBidCheck_kinds (auctionId : Nat) (userId : String) (amount : Int)
    (s : DBState) :
    (placeBidCheck auctionId userId amount s).1.errKind = some .validation ∨
      (placeBidCheck auctionId userId amount s).1.errKind = none := by
  rw [placeBidCheck]
  split
  · exact Or.inl rfl
  · exact Or.inr rfl

/-- Reduction of `placeBidAction` once the auction lookup has resolved. -/
theorem placeBidAction_found (now auctionId : Nat) (userId : String) (amount : Int)
    (s : DBState) (a : Auction)
    (hfind : s.auctions.find? (fun x => decide (x.id = auctionId)) = some a) :
    placeBidAction now auctionId userId amount s =
      if a.status ≠ .open' ∧ a.status ≠ .scheduled then
        (.err .stateConflict "Cannot place a bid on an auction with this status.", s)
      else
        match a.endTime with
        | some e =>
          if now > e then (.err .stateConflict "Auction has already ended.", s)
          else placeBidCheck auctionId userId amount s
        | none => placeBidCheck auctionId userId amount s := by
  rw [placeBidAction, hfind]

/-- Reduction of `placeBidAction` for a closed auction. -/
theorem placeBidAction_closedStatus (now auctionId : Nat) (userId : String)
    (amount : Int) (s : DBState) (a : Auction)
    (hfind : s.auctions.find? (fun x => decide (x.id = auctionId)) = some a)
    (hc : a.status ≠ .open' ∧ a.status ≠ .scheduled) :
    placeBidAction now auctionId userId amount s =
      (.err .stateConflict "Cannot place a bid on an auction with this status.", s) := by
  rw [placeBidAction_found now auctionId userId amount s a hfind, if_pos hc]

/-- Reduction of `placeBidAction` for a biddable-status auction whose end
time has passed. -/
theorem placeBidAction_ended (now auctionId : Nat) (userId : String)
    (amount : Int) (s : DBState) (a : Auction) (e : Nat)
    (hfind : s.auctions.find? (fun x => decide (x.id = auctionId)) = some a)
    (hc : ¬(a.status ≠ .open' ∧ a.status ≠ .scheduled))
    (he : a.endTime = some e) (hlt : e < now) :
    placeBidAction now auctionId userId amount s =
      (.err .stateConflict "Auction has already ended.", s) := by
  rw [placeBidAction_found now auctionId userId amount s a hfind, if_neg hc, he]
  show (if now > e then
      ((.err .stateConflict "Auction has already ended.", s) : ActionResult × DBState)
    else placeBidCheck auctionId userId amount s) =
    (.err .stateConflict "Auction has already ended.", s)
  rw [if_pos (by omega)]

/-- Reduction of `placeBidAction` for a live auction: only the amount check
remains. -/
theorem placeBidAction_live (now auctionId : Nat) (userId : String)
    (amount : Int) (s : DBState) (a : Auction)
    (hfind : s.auctions.find? (fun x => decide (x.id = auctionId)) = some a)
    (hc : ¬(a.status ≠ .open' ∧ a.status ≠ .scheduled))
    (htime : ∀ e, a.endTime = some e → now ≤ e) :
    placeBidAction now auctionId userId amount s =
      placeBidCheck auctionId userId amount s := by
  rw [placeBidAction_found now auctionId userId amount s a hfind, if_neg hc]
  cases he : a.endTime with
  | none => rfl
  | some e =>
    show (if now > e then
        ((.err .stateConflict "Auction has already ended.", s) : ActionResult × DBState)
      else placeBidCheck auctionId userId amount s) =
      placeBidCheck auctionId userId amount s
    rw [if_neg (by have := htime e he; omega)]

/-- C7: `placeBidAction` fails with `NotFoundError` when no auction has the
given id, fails with `StateConflictError` when the auction is `closed` or its
defined end time lies strictly in the past, leaves the state unchanged in
every such failure, and never raises a state or not-found error against a
`scheduled` or `open` auction whose end time has not passed. -/
theorem claim_C7_placeBid_state_errors (now auctionId : Nat) (userId : String)
    (amount : Int) (s : DBState)
    (hn : (s.auctions.map (fun a => a.id)).Nodup) :
    ((∀ a ∈ s.auctions, a.id ≠ auctionId) →
        (placeBidAction now auctionId userId amount s).1.errKind = some .notFound ∧
          (placeBidAction now auctionId userId amount s).2 = s) ∧
    (∀ a ∈ s.auctions, a.id = auctionId →
        (a.status = .closed →
            (placeBidAction now auctionId userId amount s).1.errKind = some .stateConflict ∧
              (placeBidAction now auctionId userId amount s).2 = s) ∧
        (∀ e, a.endTime = some e → e < now →
            (placeBidAction now auctionId userId amount s).1.errKind = some .stateConflict ∧
              (placeBidAction now auctionId userId amount s).2 = s) ∧
        ((a.status = .scheduled ∨ a.status = .open') →
          (∀ e, a.endTime = some e → now ≤ e) →
            (placeBidAction now auctionId userId amount s).1.errKind ≠ some .stateConflict ∧
              (placeBidAction now auctionId userId amount s).1.errKind ≠ some .notFound)) := by
  constructor
  · intro hna
    cases hf : s.auctions.find? (fun x => decide (x.id = auctionId)) with
    | none => rw [placeBidAction, hf]; exact ⟨rfl, rfl⟩
    | some a =>
      have hmem := List.mem_of_find?_eq_some hf
      have heq : a.id = auctionId := by simpa using List.find?_some hf
      exact absurd heq (hna a hmem)
  · intro a ha hid
    have hfind : s.auctions.find? (fun x => decide (x.id = auctionId)) = some a :=
      find_unique_key (fun x => x.id) s.auctions a auctionId hn ha hid
    refine ⟨?_, ?_, ?_⟩
    · intro hst
      rw [placeBidAction_closedStatus now auctionId userId amount s a hfind
        (by rw [hst]; exact ⟨by simp, by simp⟩)]
      exact ⟨rfl, rfl⟩
    · intro e he hlt
      by_cases hc : a.status ≠ .open' ∧ a.status ≠ .scheduled
      · rw [placeBidAction_closedStatus now auctionId userId amount s a hfind hc]
        exact ⟨rfl, rfl⟩
      · rw [placeBidAction_ended now auctionId userId amount s a e hfind hc he hlt]
        exact ⟨rfl, rfl⟩
    · intro hst htime
      have hc : ¬(a.status ≠ .open' ∧ a.status ≠ .scheduled) := by
        rcases hst with h | h <;> simp [h]
      rw [placeBidAction_live now auctionId userId amount s a hfind hc htime]
      rcases placeBidCheck_kinds auctionId userId amount s with h | h <;> rw [h] <;>
        exact ⟨by simp, by simp⟩

/-- Concrete state for the C7 witness: one scheduled auction, id 1, no end
time, and one live bid of 100. -/
def liveAuctionState : DBState :=
  { emptyState with
      teams := [{ id := "X", name := "X", seed := 9 }],
      auctions := [{ id := 1, teamId := "X", endTime := none, status := .scheduled,
                     finalBidAmount := none, winnerUserId := none }],
      bids := [{ auctionId := 1, userId := "A", amount := 100 }],
      nextId := 2 }

/-- C7 witness: the theorem applied to `liveAuctionState` at time 0. -/
theorem claim_C7_placeBid_state_errors_witness :
    (liveAuctionState.auctions.map (fun a => a.id)).Nodup ∧
      (((∀ a ∈ liveAuctionState.auctions, a.id ≠ 9) →
          (placeBidAction 0 9 "B" 150 liveAuctionState).1.errKind = some .notFound ∧
            (placeBidAction 0 9 "B" 150 liveAuctionState).2 = liveAuctionState) ∧
        (∀ a ∈ liveAuctionState.auctions, a.id = 9 →
            (a.status = .closed →
                (placeBidAction 0 9 "B" 150 liveAuctionState).1.errKind = some .stateConflict ∧
                  (placeBidAction 0 9 "B" 150 liveAuctionState).2 = liveAuctionState) ∧
            (∀ e, a.endTime = some e → e < 0 →
                (placeBidAction 0 9 "B" 150 liveAuctionState).1.errKind = some .stateConflict ∧
                  (placeBidAction 0 9 "B" 150 liveAuctionState).2 = liveAuctionState) ∧
            ((a.status = .scheduled ∨ a.status = .open') →
              (∀ e, a.endTime = some e → 0 ≤ e) →
                (placeBidAction 0 9 "B" 150 liveAuctionState).1.errKind ≠ some .stateConflict ∧
                  (placeBidAction 0 9 "B" 150 liveAuctionState).1.errKind ≠ some .notFound))) :=
  ⟨by decide, claim_C7_placeBid_state_errors 0 9 "B" 150 liveAuctionState (by decide)⟩

-- ---------------------------------------------------------------------------
-- Claim C2: per-auction bid amounts strictly increase
-- ---------------------------------------------------------------------------

/-- The seed of a `foldl max` is bounded by the fold's result. -/
theorem init_le_foldl_max (x : Int) (xs : List Int) : x ≤ xs.foldl max x := by
  induction xs generalizing x with
  | nil => exact le_refl x
  | cons y ys ih => exact le_trans (le_max_left x y) (ih (max x y))

/-- Every element of a nonempty list is bounded by its `foldl max`. -/
theorem mem_le_foldl_max (x : Int) (xs : List Int) :
    ∀ a ∈ x :: xs, a ≤ xs.foldl max x := by
  induction xs generalizing x with
  | nil => intro a ha; rw [List.mem_singleton] at ha; rw [ha]; exact le_refl x
  | cons y ys ih =>
    intro a ha
    rw [List.foldl_cons]
    rcases List.mem_cons.mp ha with rfl | ha'
    · exact le_trans (le_max_left a y) (init_le_foldl_max _ _)
    · rcases List.mem_cons.mp ha' with rfl | ha''
      · exact le_trans (le_max_right x a) (init_le_foldl_max _ _)
      · exact ih (max x y) a (List.mem_cons_of_mem _ ha'')

/-- Every bid of the list is bounded by the coalesced maximum the source
computes (`MAX(amount)` with `NULL` read as 0). -/
theorem le_maxBidAmount (bids : List Bid) (b : Bid) (hb : b ∈ bids) :
    b.amount ≤ (maxBidAmount bids).getD 0 := by
  cases bids with
  | nil => cases hb
  | cons x xs =>
    rw [maxBidAmount, List.map_cons]
    exact mem_le_foldl_max x.amount (xs.map (fun b => b.amount)) b.amount
      (by simpa using List.mem_map_of_mem (fun b => b.amount) hb)

/-- `placeBidAction` either leaves the database unchanged (any failure) or —
exactly when the amount beats the coalesced maximum — appends the one new
bid. -/
theorem placeBid_state_cases (now auctionId : Nat) (userId : String) (amount : Int)
    (s : DBState) :
    (placeBidAction now auctionId userId amount s).2 = s ∨
      ((maxBidAmount (bidsFor s auctionId)).getD 0 < amount ∧
        (placeBidAction now auctionId userId amount s).2 =
          { s with bids := s.bids ++
              [{ auctionId := auctionId, userId := userId, amount := amount }] }) := by
  have hcheck : (placeBidCheck auctionId userId amount s).2 = s ∨
      ((maxBidAmount (bidsFor s auctionId)).getD 0 < amount ∧
        (placeBidCheck auctionId userId amount s).2 =
          { s with bids := s.bids ++
              [{ auctionId := auctionId, userId := userId, amount := amount }] }) := by
    rw [placeBidCheck]
    split
    · exact Or.inl rfl
    · next h => exact Or.inr ⟨by omega, rfl⟩
  cases hf : s.auctions.find? (fun a => decide (a.id = auctionId)) with
  | none => rw [placeBidAction, hf]; exact Or.inl rfl
  | some a =>
    by_cases hc : a.status ≠ .open' ∧ a.status ≠ .scheduled
    · rw [placeBidAction_closedStatus now auctionId userId amount s a hf hc]
      exact Or.inl rfl
    · cases he : a.endTime with
      | none =>
        rw [placeBidAction_live now auctionId userId amount s a hf hc
          (by intro e h; rw [he] at h; cases h)]
        exact hcheck
      | some e =>
        by_cases ht : now > e
        · rw [placeBidAction_ended now auctionId userId amount s a e hf hc he (by omega)]
          exact Or.inl rfl
        · rw [placeBidAction_live now auctionId userId amount s a hf hc
            (by intro e' h; rw [he] at h; injection h with h2; omega)]
          exact hcheck

/-- Appending a bid row extends exactly the amount sequence of its auction. -/
theorem amountsFor_insert (s : DBState) (auctionId : Nat) (b : Bid) :
    amountsFor { s with bids := s.bids ++ [b] } auctionId =
      amountsFor s auctionId ++ (if b.auctionId = auctionId then [b.amount] else []) := by
  show ((s.bids ++ [b]).filter _).map _ = _
  rw [List.filter_append]
  rw [List.map_append]
  congr 1
  by_cases hb : b.auctionId = auctionId
  · rw [if_pos hb]
    show (List.filter _ [b]).map _ = _
    rw [List.filter_cons]
    rw [if_pos (by simpa using hb)]
    rfl
  · rw [if_neg hb]
    show (List.filter _ [b]).map _ = _
    rw [List.filter_cons]
    rw [if_neg (by simpa using hb)]
    rfl

/-- A strictly increasing sequence stays strictly increasing after appending
an element strictly above all members. -/
theorem chain'_append_gt (l : List Int) (a : Int) (hc : List.Chain' (· < ·) l)
    (ha : ∀ x ∈ l, x < a) : List.Chain' (· < ·) (l ++ [a]) := by
  rw [List.chain'_append]
  refine ⟨hc, List.chain'_singleton a, ?_⟩
  intro x hx y hy
  have hxl : x ∈ l := List.mem_of_mem_getLast? hx
  have hya : a = y := by simpa using hy
  rw [← hya]
  exact ha x hxl

/-- C2: against a live auction (the state checks of C7 passing), a bid whose
amount is not strictly above the coalesced current maximum — zero when the
auction has no bids — is rejected with a `ValidationError` and changes
nothing; a strictly higher bid succeeds and appends exactly one bid row with
the given amount; and consequently every `placeBidAction` call preserves
strict increase of the auction's accepted amounts in acceptance order. -/
theorem claim_C2_strictly_increasing_bids (now auctionId : Nat) (userId : String)
    (amount : Int) (s : DBState) (a : Auction)
    (hn : (s.auctions.map (fun x => x.id)).Nodup)
    (ha : a ∈ s.auctions) (hid : a.id = auctionId)
    (hst : a.status = .scheduled ∨ a.status = .open')
    (htime : ∀ e, a.endTime = some e → now ≤ e) :
    (amount ≤ (maxBidAmount (bidsFor s auctionId)).getD 0 →
        (placeBidAction now auctionId userId amount s).1.errKind = some .validation ∧
          (placeBidAction now auctionId userId amount s).2 = s) ∧
    ((maxBidAmount (bidsFor s auctionId)).getD 0 < amount →
        (placeBidAction now auctionId userId amount s).1 = .ok "Bid placed successfully" ∧
          (placeBidAction now auctionId userId amount s).2.bids =
            s.bids ++ [{ auctionId := auctionId, userId := userId, amount := amount }]) ∧
    (List.Chain' (· < ·) (amountsFor s auctionId) →
        List.Chain' (· < ·) (amountsFor (placeBidAction now auctionId userId amount s).2 auctionId)) := by
  have hfind : s.auctions.find? (fun x => decide (x.id = auctionId)) = some a :=
    find_unique_key (fun x => x.id) s.auctions a auctionId hn ha hid
  have hc : ¬(a.status ≠ .open' ∧ a.status ≠ .scheduled) := by
    rcases hst with h | h <;> simp [h]
  have hred : placeBidAction now auctionId userId amount s =
      placeBidCheck auctionId userId amount s :=
    placeBidAction_live now auctionId userId amount s a hfind hc htime
  refine ⟨?_, ?_, ?_⟩
  · intro hle
    rw [hred, placeBidCheck]
    rw [if_pos hle]
    exact ⟨rfl, rfl⟩
  · intro hlt
    rw [hred, placeBidCheck]
    rw [if_neg (by omega)]
    exact ⟨rfl, rfl⟩
  · intro hchain
    rcases placeBid_state_cases now auctionId userId amount s with h | ⟨hlt, h⟩
    · rw [h]; exact hchain
    · rw [h, amountsFor_insert]
      rw [if_pos rfl]
      apply chain'_append_gt _ _ hchain
      intro x hx
      obtain ⟨b, hb, hbe⟩ := List.mem_map.mp hx
      have hble := le_maxBidAmount (bidsFor s auctionId) b hb
      have hbx : b.amount = x := hbe
      show x < amount
      omega

/-- C2 witness: the theorem applied to `liveAuctionState` (auction 1, current
maximum 100) with a bid of 150. -/
theorem claim_C2_strictly_increasing_bids_witness :
    (liveAuctionState.auctions.map (fun x => x.id)).Nodup ∧
      ((150 ≤ (maxBidAmount (bidsFor liveAuctionState 1)).getD 0 →
          (placeBidAction 0 1 "B" 150 liveAuctionState).1.errKind = some .validation ∧
            (placeBidAction 0 1 "B" 150 liveAuctionState).2 = liveAuctionState) ∧
        ((maxBidAmount (bidsFor liveAuctionState 1)).getD 0 < 150 →
            (placeBidAction 0 1 "B" 150 liveAuctionState).1 = .ok "Bid placed successfully" ∧
              (placeBidAction 0 1 "B" 150 liveAuctionState).2.bids =
                liveAuctionState.bids ++ [{ auctionId := 1, userId := "B", amount := 150 }]) ∧
        (List.Chain' (· < ·) (amountsFor liveAuctionState 1) →
            List.Chain' (· < ·) (amountsFor (placeBidAction 0 1 "B" 150 liveAuctionState).2 1))) :=
  ⟨by decide,
    claim_C2_strictly_increasing_bids 0 1 "B" 150 liveAuctionState
      { id := 1, teamId := "X", endTime := none, status := .scheduled,
        finalBidAmount := none, winnerUserId := none }
      (by decide) (by decide) (by decide) (by decide) (by intro e he; cases he)⟩

-- ---------------------------------------------------------------------------
-- Claim C4: closing an auction
-- ---------------------------------------------------------------------------

/-- Invariant of the top-bid scan: starting from an incumbent, the fold
returns a bid that is the incumbent or a list member and bounds all of
them. -/
theorem topBid_go : ∀ (bids : List Bid) (best : Bid),
    ∃ r, bids.foldl topBidStep (some best) = some r ∧ (r = best ∨ r ∈ bids) ∧
      best.amount ≤ r.amount ∧ ∀ x ∈ bids, x.amount ≤ r.amount := by
  intro bids
  induction bids with
  | nil =>
    intro best
    exact ⟨best, rfl, Or.inl rfl, le_refl _, by intro x hx; cases hx⟩
  | cons b bs ih =>
    intro best
    rw [List.foldl_cons]
    by_cases hlt : best.amount < b.amount
    · have hstep : topBidStep (some best) b = some b := by
        show (if best.amount < b.amount then some b else some best) = some b
        rw [if_pos hlt]
      rw [hstep]
      obtain ⟨r, hr, hmem, hle, hall⟩ := ih b
      refine ⟨r, hr, ?_, le_trans (le_of_lt hlt) hle, ?_⟩
      · rcases hmem with rfl | hm
        · exact Or.inr (List.mem_cons_self _ _)
        · exact Or.inr (List.mem_cons_of_mem _ hm)
      · intro x hx
        rcases List.mem_cons.mp hx with rfl | hx'
        · exact hle
        · exact hall x hx'
    · have hstep : topBidStep (some best) b = some best := by
        show (if best.amount < b.amount then some b else some best) = some best
        rw [if_neg hlt]
      rw [hstep]
      obtain ⟨r, hr, hmem, hle, hall⟩ := ih best
      refine ⟨r, hr, ?_, hle, ?_⟩
      · rcases hmem with rfl | hm
        · exact Or.inl rfl
        · exact Or.inr (List.mem_cons_of_mem _ hm)
      · intro x hx
        rcases List.mem_cons.mp hx with rfl | hx'
        · omega
        · exact hall x hx'

/-- The bid `topBid` returns belongs to the list and realizes its maximum
amount. -/
theorem topBid_spec (bids : List Bid) (b : Bid) (h : topBid bids = some b) :
    b ∈ bids ∧ ∀ x ∈ bids, x.amount ≤ b.amount := by
  cases bids with
  | nil => exact absurd h (by rw [topBid]; simp)
  | cons x xs =>
    rw [topBid, List.foldl_cons] at h
    rw [show topBidStep none x = some x from rfl] at h
    obtain ⟨r, hr, hmem, hle, hall⟩ := topBid_go xs x
    rw [hr] at h
    injection h with hrb
    subst hrb
    constructor
    · rcases hmem with rfl | hm
      · exact List.mem_cons_self _ _
      · exact List.mem_cons_of_mem _ hm
    · intro y hy
      rcases List.mem_cons.mp hy with rfl | hy'
      · exact hle
      · exact hall y hy'

/-- `topBid` is `none` exactly on the empty bid list. -/
theorem topBid_eq_none_iff (bids : List Bid) : topBid bids = none ↔ bids = [] := by
  constructor
  · intro h
    cases bids with
    | nil => rfl
    | cons x xs =>
      rw [topBid, List.foldl_cons] at h
      rw [show topBidStep none x = some x from rfl] at h
      obtain ⟨r, hr, _, _, _⟩ := topBid_go xs x
      rw [hr] at h
      exact Option.noConfusion h
  · intro h; rw [h]; rfl

/-- Reduction of `closeAuctionAction` when the auction has no bids. -/
theorem closeAuctionAction_noBids (auctionId : Nat) (s : DBState)
    (h : topBid (bidsFor s auctionId) = none) :
    closeAuctionAction auctionId s =
      (.ok "Auction closed with no bids",
       { s with auctions := s.auctions.map (fun a =>
           if a.id = auctionId then { a with status := .closed } else a) }) := by
  rw [closeAuctionAction, h]

/-- Reduction of `closeAuctionAction` when a top bid exists. -/
theorem closeAuctionAction_withBid (auctionId : Nat) (s : DBState) (b : Bid)
    (h : topBid (bidsFor s auctionId) = some b) :
    closeAuctionAction auctionId s =
      (.ok "Auction closed successfully",
       { s with auctions := s.auctions.map (fun a =>
           if a.id = auctionId then
             { a with status := .closed, finalBidAmount := some b.amount,
                      winnerUserId := some b.userId }
           else a) }) := by
  rw [closeAuctionAction, h]

/-- C4: `closeAuctionAction` on an existing auction reports success and
rewrites that auction row to `closed`; when at least one bid exists, the
final amount becomes the maximum accepted amount and the winner is a bidder
who bid exactly that amount; when no bids exist (and the row, as for any
auction never before closed with bids, carries no final amount or winner),
the closed row keeps no winner and no final amount. -/
theorem claim_C4_close_auction (s : DBState) (auctionId : Nat) (a : Auction)
    (ha : a ∈ s.auctions) (hid : a.id = auctionId) :
    (closeAuctionAction auctionId s).1.isOk = true ∧
      ∃ a' ∈ (closeAuctionAction auctionId s).2.auctions,
        a'.id = a.id ∧ a'.teamId = a.teamId ∧ a'.status = .closed ∧
        (bidsFor s auctionId = [] → a.finalBidAmount = none → a.winnerUserId = none →
          a'.finalBidAmount = none ∧ a'.winnerUserId = none) ∧
        (bidsFor s auctionId ≠ [] →
          ∃ M, a'.finalBidAmount = some M ∧ M ∈ amountsFor s auctionId ∧
            (∀ x ∈ amountsFor s auctionId, x ≤ M) ∧
            ∃ b ∈ bidsFor s auctionId, a'.winnerUserId = some b.userId ∧ b.amount = M) := by
  cases htb : topBid (bidsFor s auctionId) with
  | none =>
    rw [closeAuctionAction_noBids auctionId s htb]
    refine ⟨rfl, ?_⟩
    refine ⟨({ a with status := .closed } : Auction), ?_, rfl, rfl, rfl, ?_, ?_⟩
    · have hmem := List.mem_map_of_mem
        (fun x => if x.id = auctionId then { x with status := AuctionStatus.closed } else x) ha
      simpa [hid] using hmem
    · intro _ hfin hwin
      exact ⟨hfin, hwin⟩
    · intro hne
      exact absurd ((topBid_eq_none_iff _).mp htb) hne
  | some b =>
    obtain ⟨hbmem, hmax⟩ := topBid_spec _ b htb
    rw [closeAuctionAction_withBid auctionId s b htb]
    refine ⟨rfl, ?_⟩
    refine ⟨({ a with
      status := .closed,
      finalBidAmount := some b.amount,
      winnerUserId := some b.userId } : Auction), ?_, rfl, rfl, rfl, ?_, ?_⟩
    · have hmem := List.mem_map_of_mem
        (fun x => if x.id = auctionId then
          { x with status := AuctionStatus.closed, finalBidAmount := some b.amount,
                   winnerUserId := some b.userId }
         else x) ha
      simpa [hid] using hmem
    · intro hbf _ _
      rw [hbf] at hbmem
      cases hbmem
    · intro _
      refine ⟨b.amount, rfl, List.mem_map_of_mem _ hbmem, ?_, b, hbmem, rfl, rfl⟩
      intro x hx
      obtain ⟨y, hy, hye⟩ := List.mem_map.mp hx
      have : y.amount ≤ b.amount := hmax y hy
      omega

/-- The auction row of the C4 witness example. -/
def exampleAuction : Auction :=
  { id := 1, teamId := "X", endTime := none, status := .open',
    finalBidAmount := none, winnerUserId := none }

/-- Concrete state for the C4 witness: auction 1 on team X with the spec's
example bids A:100, B:150, C:120. -/
def threeBidAuctionState : DBState :=
  { emptyState with
      teams := [{ id := "X", name := "X", seed := 9 }],
      auctions := [exampleAuction],
      bids := [{ auctionId := 1, userId := "A", amount := 100 },
               { auctionId := 1, userId := "B", amount := 150 },
               { auctionId := 1, userId := "C", amount := 120 }],
      nextId := 2 }

/-- C4 witness: the theorem applied to the A:100/B:150/C:120 example. -/
theorem claim_C4_close_auction_witness :
    exampleAuction ∈ threeBidAuctionState.auctions ∧
      ((closeAuctionAction 1 threeBidAuctionState).1.isOk = true ∧
        ∃ a' ∈ (closeAuctionAction 1 threeBidAuctionState).2.auctions,
          a'.id = exampleAuction.id ∧ a'.teamId = exampleAuction.teamId ∧
          a'.status = .closed ∧
          (bidsFor threeBidAuctionState 1 = [] → exampleAuction.finalBidAmount = none →
            exampleAuction.winnerUserId = none →
            a'.finalBidAmount = none ∧ a'.winnerUserId = none) ∧
          (bidsFor threeBidAuctionState 1 ≠ [] →
            ∃ M, a'.finalBidAmount = some M ∧ M ∈ amountsFor threeBidAuctionState 1 ∧
              (∀ x ∈ amountsFor threeBidAuctionState 1, x ≤ M) ∧
              ∃ b ∈ bidsFor threeBidAuctionState 1,
                a'.winnerUserId = some b.userId ∧ b.amount = M)) :=
  ⟨by decide,
    claim_C4_close_auction threeBidAuctionState 1 exampleAuction (by decide) rfl⟩

-- ---------------------------------------------------------------------------
-- Claim C6: scoring (amended)
-- ---------------------------------------------------------------------------

/-- The score of a user within a list of score rows. -/
def lookupScore (scores : List Score) (userId : String) : Option Int :=
  (scores.find? (fun sc => decide (sc.userId = userId))).map (fun sc => sc.currentScore)

/-- `scoreOf` is `lookupScore` on the scores table. -/
theorem scoreOf_eq_lookupScore (s : DBState) (u : String) :
    scoreOf s u = lookupScore s.scores u := rfl

/-- One `creditScore` iteration adds `points` to its target user — reading a
missing row as zero — and leaves every other user's score unchanged. -/
theorem lookupScore_creditScore (points : Int) (scores : List Score) (u v : String) :
    lookupScore (creditScore points scores u) v =
      if v = u then some ((lookupScore scores u).getD 0 + points)
      else lookupScore scores v := by
  have hcomp : ((fun sc => decide (sc.userId = v)) ∘
      (fun sc : Score =>
        if sc.userId = u then { sc with currentScore := sc.currentScore + points } else sc)) =
      (fun sc : Score => decide (sc.userId = v)) := by
    funext sc
    by_cases h : sc.userId = u
    · simp [Function.comp, h]
    · simp [Function.comp, h]
  by_cases hf : (scores.find? (fun sc => decide (sc.userId = u))).isSome = true
  · simp only [lookupScore]
    rw [creditScore, if_pos hf, List.find?_map, hcomp]
    by_cases hv : v = u
    · subst hv
      obtain ⟨sc, hsc⟩ := Option.isSome_iff_exists.mp hf
      rw [hsc, if_pos rfl]
      have hsv : sc.userId = v := by simpa using List.find?_some hsc
      simp [hsv]
    · rw [if_neg hv]
      cases hfv : scores.find? (fun sc => decide (sc.userId = v)) with
      | none => rfl
      | some sc =>
        have hsv : sc.userId = v := by simpa using List.find?_some hfv
        have hne : ¬(sc.userId = u) := by rw [hsv]; exact hv
        simp [hne]
  · have hnone : scores.find? (fun sc => decide (sc.userId = u)) = none := by
      cases hx : scores.find? (fun sc => decide (sc.userId = u)) with
      | none => rfl
      | some sc => rw [hx] at hf; exact absurd rfl hf
    simp only [lookupScore]
    rw [creditScore, if_neg hf, List.find?_map, hcomp, List.find?_append]
    by_cases hv : v = u
    · subst hv
      rw [hnone]
      simp
    · rw [if_neg hv]
      have hsingle : List.find? (fun sc : Score => decide (sc.userId = v))
          ([{ userId := u, currentScore := 0 }] : List Score) = none := by
        have : ¬(u = v) := fun h => hv h.symm
        simp [List.find?, this]
      rw [hsingle, Option.or_none]
      cases hfv : scores.find? (fun sc => decide (sc.userId = v)) with
      | none => rfl
      | some sc =>
        have hsv : sc.userId = v := by simpa using List.find?_some hfv
        have hne : ¬(sc.userId = u) := by rw [hsv]; exact hv
        simp [hne]

/-- The scoring loop credits each user once per pick row processed: after the
fold, a user holding `k` of the processed rows has gained `k × points`
(starting from zero when no score row existed), and users holding none are
untouched. -/
theorem lookupScore_scoreLoop (points : Int) :
    ∀ (ps : List Pick) (scores : List Score) (u : String),
      lookupScore (ps.foldl (fun acc p => creditScore points acc p.userId) scores) u =
        if (ps.filter (fun p => decide (p.userId = u))).length = 0 then lookupScore scores u
        else some ((lookupScore scores u).getD 0 +
          ((ps.filter (fun p => decide (p.userId = u))).length : Int) * points) := by
  intro ps
  induction ps with
  | nil => intro scores u; simp
  | cons p rest ih =>
    intro scores u
    by_cases hpu : u = p.userId
    · subst hpu
      rw [List.foldl_cons, ih (creditScore points scores p.userId) p.userId,
        lookupScore_creditScore]
      have hfilter : (p :: rest).filter (fun q => decide (q.userId = p.userId)) =
          p :: rest.filter (fun q => decide (q.userId = p.userId)) := by
        rw [List.filter_cons, if_pos (by simp)]
      rw [if_pos rfl, hfilter, List.length_cons]
      by_cases hk : (rest.filter (fun q => decide (q.userId = p.userId))).length = 0
      · rw [if_pos hk, if_neg (by omega), hk]
        simp
      · rw [if_neg hk, if_neg (by omega)]
        simp only [Option.getD_some]
        congr 1
        push_cast
        ring
    · rw [List.foldl_cons, ih (creditScore points scores p.userId) u,
        lookupScore_creditScore]
      have hfilter : (p :: rest).filter (fun q => decide (q.userId = u)) =
          rest.filter (fun q => decide (q.userId = u)) := by
        rw [List.filter_cons,
          if_neg (by simp only [decide_eq_true_eq]; exact fun h => hpu h.symm)]
      rw [if_neg hpu, hfilter]

/-- The scoring loop of `updateScoresAction` (source step 5), one
`creditScore` iteration per pick row on the winning team. -/
def scoreLoopResult (points : Int) (s : DBState) (winningTeamId : String) : List Score :=
  (s.picks.filter (fun p => decide (p.teamId = winningTeamId))).foldl
    (fun acc p => creditScore points acc p.userId) s.scores

/-- Reduction of `updateScoresAction` once the team lookup has resolved. -/
theorem updateScoresAction_found (winningTeamId round : String) (s : DBState)
    (team : Team)
    (hfind : s.teams.find? (fun t => decide (t.id = winningTeamId)) = some team) :
    updateScoresAction winningTeamId round s =
      (.ok "Scores updated",
       { s with scores := scoreLoopResult (basePointsFor team * roundMultiplier round) s winningTeamId }) := by
  rw [updateScoresAction, hfind]
  rfl

/-- The number of pick rows on a team owned by a user. -/
def holderPickCount (s : DBState) (teamId userId : String) : Nat :=
  ((s.picks.filter (fun p => decide (p.teamId = teamId))).filter
    (fun p => decide (p.userId = userId))).length

/-- C6 (amended): `updateScoresAction` on a known team succeeds and awards
base × multiplier once per pick row on that team: a user holding `k` such
rows gains `k × base × multiplier` (a zero score row being created first if
absent) and a user holding none keeps an unchanged score.  The base is 5 for
a favorite-seed team and the seed otherwise, and the multiplier is keyed on
the lowercased round name — ×2, ×3, ×4, ×5 for sweet 16, elite 8, final 4,
championship, and ×1 for every other lowercased name. -/
theorem claim_C6_scoring_per_pick (winningTeamId round : String) (s : DBState)
    (team : Team)
    (hn : (s.teams.map (fun t => t.id)).Nodup)
    (ht : team ∈ s.teams) (hid : team.id = winningTeamId) :
    (updateScoresAction winningTeamId round s).1 = .ok "Scores updated" ∧
      ∀ u : String,
        scoreOf (updateScoresAction winningTeamId round s).2 u =
          if holderPickCount s winningTeamId u = 0 then scoreOf s u
          else some ((scoreOf s u).getD 0 +
            (holderPickCount s winningTeamId u : Int) *
              ((if FAVORITE_SEEDS.contains team.seed then (5 : Int) else (team.seed : Int)) *
                roundMultiplier round)) := by
  have hfind : s.teams.find? (fun t => decide (t.id = winningTeamId)) = some team :=
    find_unique_key (fun t => t.id) s.teams team winningTeamId hn ht hid
  rw [updateScoresAction_found winningTeamId round s team hfind]
  refine ⟨rfl, ?_⟩
  intro u
  exact lookupScore_scoreLoop (basePointsFor team * roundMultiplier round)
    (s.picks.filter (fun p => decide (p.teamId = winningTeamId))) s.scores u

/-- Concrete state for the C6 witness: favorite F (seed 1) held by A and
upset candidate U (seed 13) held by B. -/
def finalFourState : DBState :=
  { emptyState with
      teams := [{ id := "F", name := "Fav", seed := 1 },
                { id := "U", name := "Upset", seed := 13 }],
      picks := [{ userId := "A", teamId := "F", type := .favorite },
                { userId := "B", teamId := "U", type := .cinderella }] }

/-- C6 witness: in round "final 4" the favorite's holder gains 5 × 4 = 20 and
the seed-13 upset candidate's holder gains 13 × 4 = 52. -/
theorem claim_C6_scoring_per_pick_witness :
    scoreOf (updateScoresAction "F" "final 4" finalFourState).2 "A" = some 20 ∧
      scoreOf (updateScoresAction "U" "final 4" finalFourState).2 "B" = some 52 :=
  ⟨((claim_C6_scoring_per_pick "F" "final 4" finalFourState
      { id := "F", name := "Fav", seed := 1 } (by decide) (by decide) rfl).2 "A").trans
        (by decide),
   ((claim_C6_scoring_per_pick "U" "final 4" finalFourState
      { id := "U", name := "Upset", seed := 13 } (by decide) (by decide) rfl).2 "B").trans
        (by decide)⟩

-- ---------------------------------------------------------------------------
-- Claim C3: pick validation
-- ---------------------------------------------------------------------------

/-- The team rows resolved by the submitted id list (`findMany` with
`inArray`). -/
def resolvedTeams (s : DBState) (teamIds : List String) : List Team :=
  s.teams.filter (fun t => teamIds.contains t.id)

/-- The four pick rows inserted on success. -/
def newPicksFor (userId : String) (teamIds : List String) (s : DBState) : List Pick :=
  (s.teams.filter (fun t => teamIds.contains t.id)).map (fun t =>
    { userId := userId, teamId := t.id,
      type := if CINDERELLA_SEEDS.contains t.seed then .cinderella else .favorite })

/-- No seed is both a cinderella seed and a favorite seed. -/
theorem seeds_disjoint (n : Nat) (hc : CINDERELLA_SEEDS.contains n = true)
    (hf : FAVORITE_SEEDS.contains n = true) : False := by
  have h1 : n ∈ CINDERELLA_SEEDS := List.elem_iff.mp hc
  have h2 : n ∈ FAVORITE_SEEDS := List.elem_iff.mp hf
  simp only [CINDERELLA_SEEDS, List.mem_cons, List.not_mem_nil, or_false] at h1
  rcases h1 with rfl | rfl | rfl | rfl | rfl | rfl | rfl | rfl <;>
    simp [FAVORITE_SEEDS] at h2

/-- The two category filters are disjoint, so their lengths add up to the
length of the combined filter. -/
theorem category_filter_sum (l : List Team) :
    ((l.filter (fun t => CINDERELLA_SEEDS.contains t.seed)).length +
      (l.filter (fun t => FAVORITE_SEEDS.contains t.seed)).length) =
    (l.filter (fun t =>
      CINDERELLA_SEEDS.contains t.seed || FAVORITE_SEEDS.contains t.seed)).length := by
  induction l with
  | nil => rfl
  | cons t rest ih =>
    rw [List.filter_cons, List.filter_cons, List.filter_cons]
    by_cases hc : CINDERELLA_SEEDS.contains t.seed = true
    · have hf : ¬(FAVORITE_SEEDS.contains t.seed = true) :=
        fun hf => seeds_disjoint _ hc hf
      rw [if_pos hc, if_neg hf, if_pos (by rw [hc]; rfl)]
      simp only [List.length_cons]
      omega
    · rw [if_neg hc]
      by_cases hf : FAVORITE_SEEDS.contains t.seed = true
      · rw [if_pos hf, if_pos (by rw [hf, Bool.or_true])]
        simp only [List.length_cons]
        omega
      · rw [if_neg hf, if_neg (by
          intro h
          rcases Bool.or_eq_true_iff.mp h with h' | h'
          · exact hc h'
          · exact hf h')]
        exact ih

/-- A 4-element team list with 3 cinderella-seed rows and 1 favorite-seed
row consists only of categorized rows. -/
theorem all_categorized (l : List Team) (hlen : l.length = 4)
    (hC : (l.filter (fun t => CINDERELLA_SEEDS.contains t.seed)).length = 3)
    (hF : (l.filter (fun t => FAVORITE_SEEDS.contains t.seed)).length = 1) :
    ∀ t ∈ l, CINDERELLA_SEEDS.contains t.seed = true ∨
      FAVORITE_SEEDS.contains t.seed = true := by
  have hsum := category_filter_sum l
  rw [hC, hF] at hsum
  have hall : ∀ t ∈ l, (fun t =>
      CINDERELLA_SEEDS.contains t.seed || FAVORITE_SEEDS.contains t.seed) t = true := by
    apply List.filter_length_eq_length.mp
    omega
  intro t ht
  have := hall t ht
  simpa using this

/-- With unique team ids and a 4-entry id list, exactly 4 rows resolve iff
the ids are pairwise distinct and every one of them resolves. -/
theorem resolvedTeams_length_iff (s : DBState) (teamIds : List String)
    (hn : (s.teams.map (fun t => t.id)).Nodup) (hlen : teamIds.length = 4) :
    (resolvedTeams s teamIds).length = 4 ↔
      (teamIds.Nodup ∧ ∀ tid ∈ teamIds, ∃ t ∈ s.teams, t.id = tid) := by
  have hfsub : List.Sublist ((resolvedTeams s teamIds).map (fun t => t.id))
      (s.teams.map (fun t => t.id)) :=
    List.Sublist.map _ (List.filter_sublist _)
  have hfnodup : ((resolvedTeams s teamIds).map (fun t => t.id)).Nodup :=
    List.Nodup.sublist hfsub hn
  have hfmem : ∀ x ∈ (resolvedTeams s teamIds).map (fun t => t.id), x ∈ teamIds := by
    intro x hx
    obtain ⟨t, ht, hte⟩ := List.mem_map.mp hx
    have hpt := List.of_mem_filter ht
    rw [← hte]
    exact List.elem_iff.mp (by simpa using hpt)
  have hflen : ((resolvedTeams s teamIds).map (fun t => t.id)).length =
      (resolvedTeams s teamIds).length := List.length_map _ _
  constructor
  · intro h4
    have hsubdedup : ∀ x ∈ (resolvedTeams s teamIds).map (fun t => t.id),
        x ∈ teamIds.dedup :=
      fun x hx => List.mem_dedup.mpr (hfmem x hx)
    have hsp : List.Subperm ((resolvedTeams s teamIds).map (fun t => t.id))
        teamIds.dedup :=
      List.subperm_of_subset hfnodup hsubdedup
    have hlen1 := List.Subperm.length_le hsp
    have hlen2 : teamIds.dedup.length ≤ teamIds.length :=
      List.Sublist.length_le (List.dedup_sublist _)
    have hdedup_eq : teamIds.dedup = teamIds :=
      (List.Sublist.length_eq (List.dedup_sublist _)).mp (by omega)
    have hnodupT : teamIds.Nodup := by
      rw [← hdedup_eq]
      exact List.nodup_dedup _
    have hsp2 : List.Subperm ((resolvedTeams s teamIds).map (fun t => t.id)) teamIds :=
      List.subperm_of_subset hfnodup hfmem
    have hperm : List.Perm ((resolvedTeams s teamIds).map (fun t => t.id)) teamIds :=
      List.Subperm.perm_of_length_le hsp2 (by omega)
    refine ⟨hnodupT, ?_⟩
    intro tid htid
    have hmem : tid ∈ (resolvedTeams s teamIds).map (fun t => t.id) :=
      (hperm.mem_iff).mpr htid
    obtain ⟨t, ht, hte⟩ := List.mem_map.mp hmem
    exact ⟨t, List.mem_of_mem_filter ht, hte⟩
  · rintro ⟨hnodupT, hres⟩
    have hsubT : ∀ tid ∈ teamIds, tid ∈ (resolvedTeams s teamIds).map (fun t => t.id) := by
      intro tid htid
      obtain ⟨t, ht, htid'⟩ := hres tid htid
      have hmemId : t.id ∈ teamIds := by rw [htid']; exact htid
      have htf : t ∈ resolvedTeams s teamIds := by
        rw [resolvedTeams]
        exact List.mem_filter.mpr ⟨ht, by simpa using List.elem_iff.mpr hmemId⟩
      exact List.mem_map.mpr ⟨t, htf, htid'⟩
    have hsp1 : List.Subperm teamIds ((resolvedTeams s teamIds).map (fun t => t.id)) :=
      List.subperm_of_subset hnodupT hsubT
    have hsp2 : List.Subperm ((resolvedTeams s teamIds).map (fun t => t.id)) teamIds :=
      List.subperm_of_subset hfnodup hfmem
    have h1 := List.Subperm.length_le hsp1
    have h2 := List.Subperm.length_le hsp2
    omega

/-- Forward evaluation of the tally loop: on a dup-free, fully categorized
team list it returns the two category counts. -/
theorem tallyTeams_counts : ∀ (l : List Team) (seen : List String) (c f : Nat),
    (l.map (fun t => t.id)).Nodup →
    (∀ t ∈ l, ¬(seen.contains t.id = true)) →
    (∀ t ∈ l, CINDERELLA_SEEDS.contains t.seed = true ∨
      FAVORITE_SEEDS.contains t.seed = true) →
    tallyTeams l seen c f =
      .counts (c + (l.filter (fun t => CINDERELLA_SEEDS.contains t.seed)).length)
        (f + (l.filter (fun t => FAVORITE_SEEDS.contains t.seed)).length) := by
  intro l
  induction l with
  | nil =>
    intro seen c f _ _ _
    simp [tallyTeams]
  | cons t rest ih =>
    intro seen c f hn hdisj hcat
    rw [show tallyTeams (t :: rest) seen c f =
        (if seen.contains t.id then .dup t.name
         else if CINDERELLA_SEEDS.contains t.seed then
           tallyTeams rest (t.id :: seen) (c + 1) f
         else if FAVORITE_SEEDS.contains t.seed then
           tallyTeams rest (t.id :: seen) c (f + 1)
         else .invalidSeed t.name t.seed) from rfl]
    rw [if_neg (hdisj t (List.mem_cons_self t rest))]
    have hnodup_rest : (rest.map (fun t => t.id)).Nodup := (List.nodup_cons.mp hn).2
    have hnotmem : t.id ∉ rest.map (fun t => t.id) := (List.nodup_cons.mp hn).1
    have hdisj' : ∀ r ∈ rest, ¬((t.id :: seen).contains r.id = true) := by
      intro r hr hcon
      have hmem : r.id = t.id ∨ r.id ∈ seen := by
        simpa using List.elem_iff.mp hcon
      rcases hmem with heq | hmem'
      · exact hnotmem (by rw [← heq]; exact List.mem_map_of_mem _ hr)
      · exact hdisj r (List.mem_cons_of_mem t hr) (List.elem_iff.mpr hmem')
    have hcat' : ∀ r ∈ rest, CINDERELLA_SEEDS.contains r.seed = true ∨
        FAVORITE_SEEDS.contains r.seed = true :=
      fun r hr => hcat r (List.mem_cons_of_mem t hr)
    by_cases hc : CINDERELLA_SEEDS.contains t.seed = true
    · have hfneg : ¬(FAVORITE_SEEDS.contains t.seed = true) :=
        fun hf => seeds_disjoint _ hc hf
      rw [if_pos hc, ih (t.id :: seen) (c + 1) f hnodup_rest hdisj' hcat']
      rw [List.filter_cons, List.filter_cons, if_pos hc, if_neg hfneg, List.length_cons]
      congr 1
      all_goals omega
    · have hf : FAVORITE_SEEDS.contains t.seed = true := by
        rcases hcat t (List.mem_cons_self t rest) with h | h
        · exact absurd h hc
        · exact h
      rw [if_neg hc, if_pos hf, ih (t.id :: seen) c (f + 1) hnodup_rest hdisj' hcat']
      rw [List.filter_cons, List.filter_cons, if_neg hc, if_pos hf, List.length_cons]
      congr 1
      all_goals omega

/-- Inversion of the tally loop: a `counts` outcome forces every team to be
categorized and ties the counters to the two category filters. -/
theorem tallyTeams_counts_inv : ∀ (l : List Team) (seen : List String) (c f a b : Nat),
    tallyTeams l seen c f = .counts a b →
    (∀ t ∈ l, CINDERELLA_SEEDS.contains t.seed = true ∨
        FAVORITE_SEEDS.contains t.seed = true) ∧
      a = c + (l.filter (fun t => CINDERELLA_SEEDS.contains t.seed)).length ∧
      b = f + (l.filter (fun t => FAVORITE_SEEDS.contains t.seed)).length := by
  intro l
  induction l with
  | nil =>
    intro seen c f a b h
    rw [show tallyTeams [] seen c f = .counts c f from rfl] at h
    injection h with h1 h2
    refine ⟨fun t ht => absurd ht (List.not_mem_nil t), ?_, ?_⟩
    · simp [← h1]
    · simp [← h2]
  | cons t rest ih =>
    intro seen c f a b h
    rw [show tallyTeams (t :: rest) seen c f =
        (if seen.contains t.id then .dup t.name
         else if CINDERELLA_SEEDS.contains t.seed then
           tallyTeams rest (t.id :: seen) (c + 1) f
         else if FAVORITE_SEEDS.contains t.seed then
           tallyTeams rest (t.id :: seen) c (f + 1)
         else .invalidSeed t.name t.seed) from rfl] at h
    by_cases hs : seen.contains t.id = true
    · rw [if_pos hs] at h
      exact TallyResult.noConfusion h
    · rw [if_neg hs] at h
      by_cases hc : CINDERELLA_SEEDS.contains t.seed = true
      · rw [if_pos hc] at h
        obtain ⟨hcat, ha, hb⟩ := ih (t.id :: seen) (c + 1) f a b h
        have hfneg : ¬(FAVORITE_SEEDS.contains t.seed = true) :=
          fun hf => seeds_disjoint _ hc hf
        refine ⟨?_, ?_, ?_⟩
        · intro r hr
          rcases List.mem_cons.mp hr with rfl | hr'
          · exact Or.inl hc
          · exact hcat r hr'
        · rw [List.filter_cons, if_pos hc, List.length_cons]
          omega
        · rw [List.filter_cons, if_neg hfneg]
          omega
      · rw [if_neg hc] at h
        by_cases hf : FAVORITE_SEEDS.contains t.seed = true
        · rw [if_pos hf] at h
          obtain ⟨hcat, ha, hb⟩ := ih (t.id :: seen) c (f + 1) a b h
          refine ⟨?_, ?_, ?_⟩
          · intro r hr
            rcases List.mem_cons.mp hr with rfl | hr'
            · exact Or.inr hf
            · exact hcat r hr'
          · rw [List.filter_cons, if_neg hc]
            omega
          · rw [List.filter_cons, if_pos hf, List.length_cons]
            omega
        · rw [if_neg hf] at h
          exact TallyResult.noConfusion h

/-- The contested-team step never touches the picks table. -/
theorem contestedStep_picks (st : DBState) (t : Team) :
    (contestedStep st t).picks = st.picks := by
  rw [contestedStep]
  by_cases h1 : pickCountFor st t.id > 1
  · rw [if_pos h1]
    by_cases h2 : auctionExistsFor st t.id = true
    · rw [if_pos h2]
    · rw [if_neg h2]
      rfl
  · rw [if_neg h1]

/-- Folding the contested-team step over any team list never touches the
picks table. -/
theorem foldl_contestedStep_picks : ∀ (ts : List Team) (st : DBState),
    (ts.foldl contestedStep st).picks = st.picks := by
  intro ts
  induction ts with
  | nil => intro st; rfl
  | cons t rest ih =>
    intro st
    rw [List.foldl_cons, ih (contestedStep st t), contestedStep_picks]

/-- Reduction of `createUserPicksAction` on a failed input guard. -/
theorem createUserPicksAction_guard (userId : String) (teamIds : List String)
    (s : DBState) (h : userId = "" ∨ teamIds.length ≠ 4) :
    createUserPicksAction userId teamIds s =
      (.err .validation "You must select exactly 4 teams: 3 cinderellas and 1 favorite.",
        s) := by
  rw [createUserPicksAction, if_pos h]

/-- Reduction of `createUserPicksAction` when the user already has picks. -/
theorem createUserPicksAction_already (userId : String) (teamIds : List String)
    (s : DBState) (h1 : ¬(userId = "" ∨ teamIds.length ≠ 4))
    (h2 : (s.picks.find? (fun p => decide (p.userId = userId))).isSome = true) :
    createUserPicksAction userId teamIds s =
      (.err .stateConflict "You have already made your picks. You cannot pick again.",
        s) := by
  rw [createUserPicksAction, if_neg h1, if_pos h2]

/-- Reduction of `createUserPicksAction` when the ids do not resolve to 4
rows. -/
theorem createUserPicksAction_badTeams (userId : String) (teamIds : List String)
    (s : DBState) (h1 : ¬(userId = "" ∨ teamIds.length ≠ 4))
    (h2 : ¬((s.picks.find? (fun p => decide (p.userId = userId))).isSome = true))
    (h3 : (s.teams.filter (fun t => teamIds.contains t.id)).length ≠ 4) :
    createUserPicksAction userId teamIds s =
      (.err .validation "One or more selected teams could not be found.", s) := by
  rw [createUserPicksAction, if_neg h1, if_neg h2, if_pos h3]

/-- Reduction of `createUserPicksAction` when the tally finds a duplicate. -/
theorem createUserPicksAction_tally_dup (userId : String) (teamIds : List String)
    (s : DBState) (dupName : String) (h1 : ¬(userId = "" ∨ teamIds.length ≠ 4))
    (h2 : ¬((s.picks.find? (fun p => decide (p.userId = userId))).isSome = true))
    (h3 : ¬((s.teams.filter (fun t => teamIds.contains t.id)).length ≠ 4))
    (htally : tallyTeams (s.teams.filter (fun t => teamIds.contains t.id)) [] 0 0 =
      .dup dupName) :
    createUserPicksAction userId teamIds s =
      (.err .validation "Duplicate team selection.", s) := by
  rw [createUserPicksAction, if_neg h1, if_neg h2, if_neg h3, htally]

/-- Reduction of `createUserPicksAction` when the tally finds an invalid
seed. -/
theorem createUserPicksAction_tally_invalid (userId : String) (teamIds : List String)
    (s : DBState) (badName : String) (badSeed : Nat)
    (h1 : ¬(userId = "" ∨ teamIds.length ≠ 4))
    (h2 : ¬((s.picks.find? (fun p => decide (p.userId = userId))).isSome = true))
    (h3 : ¬((s.teams.filter (fun t => teamIds.contains t.id)).length ≠ 4))
    (htally : tallyTeams (s.teams.filter (fun t => teamIds.contains t.id)) [] 0 0 =
      .invalidSeed badName badSeed) :
    createUserPicksAction userId teamIds s =
      (.err .validation "Invalid pick: team is neither cinderella nor favorite.", s) := by
  rw [createUserPicksAction, if_neg h1, if_neg h2, if_neg h3, htally]

/-- Reduction of `createUserPicksAction` once the tally has produced its two
counts: only the distribution check and the committed insert remain. -/
theorem createUserPicksAction_tally_counts (userId : String) (teamIds : List String)
    (s : DBState) (cCount fCount : Nat)
    (h1 : ¬(userId = "" ∨ teamIds.length ≠ 4))
    (h2 : ¬((s.picks.find? (fun p => decide (p.userId = userId))).isSome = true))
    (h3 : ¬((s.teams.filter (fun t => teamIds.contains t.id)).length ≠ 4))
    (htally : tallyTeams (s.teams.filter (fun t => teamIds.contains t.id)) [] 0 0 =
      .counts cCount fCount) :
    createUserPicksAction userId teamIds s =
      if cCount ≠ 3 ∨ fCount ≠ 1 then
        (.err .validation "Invalid distribution of picks.", s)
      else
        (.ok "Picks created successfully",
          (s.teams.filter (fun t => teamIds.contains t.id)).foldl contestedStep
            { s with picks := s.picks ++ newPicksFor userId teamIds s }) := by
  rw [createUserPicksAction, if_neg h1, if_neg h2, if_neg h3, htally]
  rfl

/-- C3: `createUserPicksAction` (for a nonempty user identifier, as supplied
by the identity provider) succeeds iff the submitted list holds exactly 4
pairwise distinct identifiers, each resolving to a known team, the resolved
rows being exactly 3 cinderella-seed (9–16) teams and 1 favorite-seed (1–4)
team, and the user has no existing pick rows; on success exactly four pick
rows for that user are appended in the one transactional insert, and on any
failure the database is left unchanged. -/
theorem claim_C3_pick_validation (userId : String) (teamIds : List String)
    (s : DBState) (hn : (s.teams.map (fun t => t.id)).Nodup) (hu : userId ≠ "") :
    ((createUserPicksAction userId teamIds s).1.isOk = true ↔
      (teamIds.length = 4 ∧ teamIds.Nodup ∧
        (∀ tid ∈ teamIds, ∃ t ∈ s.teams, t.id = tid) ∧
        ((resolvedTeams s teamIds).filter
          (fun t => CINDERELLA_SEEDS.contains t.seed)).length = 3 ∧
        ((resolvedTeams s teamIds).filter
          (fun t => FAVORITE_SEEDS.contains t.seed)).length = 1 ∧
        (∀ p ∈ s.picks, p.userId ≠ userId))) ∧
    ((createUserPicksAction userId teamIds s).1.isOk = true →
      ∃ newPicks : List Pick,
        (createUserPicksAction userId teamIds s).2.picks = s.picks ++ newPicks ∧
        newPicks.length = 4 ∧ ∀ p ∈ newPicks, p.userId = userId) ∧
    ((createUserPicksAction userId teamIds s).1.isOk = false →
      (createUserPicksAction userId teamIds s).2 = s) := by
  by_cases hlen : teamIds.length = 4
  case neg =>
    rw [createUserPicksAction_guard userId teamIds s (Or.inr hlen)]
    refine ⟨⟨fun h => Bool.noConfusion h, ?_⟩, fun h => Bool.noConfusion h, fun _ => rfl⟩
    rintro ⟨h4len, _⟩
    exact absurd h4len hlen
  case pos =>
    have h1 : ¬(userId = "" ∨ teamIds.length ≠ 4) := by
      rintro (h | h)
      · exact hu h
      · exact h hlen
    by_cases h2 : (s.picks.find? (fun p => decide (p.userId = userId))).isSome = true
    case pos =>
      rw [createUserPicksAction_already userId teamIds s h1 h2]
      obtain ⟨p, hp, hpu⟩ := List.find?_isSome.mp h2
      have hpu' : p.userId = userId := by simpa using hpu
      refine ⟨⟨fun h => Bool.noConfusion h, ?_⟩, fun h => Bool.noConfusion h, fun _ => rfl⟩
      rintro ⟨_, _, _, _, _, hno⟩
      exact absurd hpu' (hno p hp)
    case neg =>
      have hnop : ∀ p ∈ s.picks, p.userId ≠ userId := by
        intro p hp heq
        exact h2 (List.find?_isSome.mpr ⟨p, hp, by simpa using heq⟩)
      by_cases h3 : (s.teams.filter (fun t => teamIds.contains t.id)).length = 4
      case neg =>
        rw [createUserPicksAction_badTeams userId teamIds s h1 h2 h3]
        refine ⟨⟨fun h => Bool.noConfusion h, ?_⟩, fun h => Bool.noConfusion h, fun _ => rfl⟩
        rintro ⟨_, hnd, hres, _⟩
        have h4 : (resolvedTeams s teamIds).length = 4 :=
          (resolvedTeams_length_iff s teamIds hn hlen).mpr ⟨hnd, hres⟩
        exact absurd h4 h3
      case pos =>
        have hfnodup : ((s.teams.filter (fun t => teamIds.contains t.id)).map
            (fun t => t.id)).Nodup :=
          List.Nodup.sublist (List.Sublist.map _ (List.filter_sublist _)) hn
        have hseen : ∀ t ∈ s.teams.filter (fun t => teamIds.contains t.id),
            ¬(([] : List String).contains t.id = true) := by
          intro t _ h
          simp at h
        have h3res : (resolvedTeams s teamIds).length = 4 := h3
        cases htally : tallyTeams (s.teams.filter (fun t => teamIds.contains t.id)) [] 0 0 with
        | dup dupName =>
          rw [createUserPicksAction_tally_dup userId teamIds s dupName h1 h2
            (fun hh => hh h3) htally]
          refine ⟨⟨fun h => Bool.noConfusion h, ?_⟩, fun h => Bool.noConfusion h, fun _ => rfl⟩
          rintro ⟨_, _, _, hc3, hf1, _⟩
          have hcat := all_categorized (resolvedTeams s teamIds) h3res hc3 hf1
          have hcounts := tallyTeams_counts
            (s.teams.filter (fun t => teamIds.contains t.id)) [] 0 0 hfnodup hseen hcat
          rw [htally] at hcounts
          exact TallyResult.noConfusion hcounts
        | invalidSeed badName badSeed =>
          rw [createUserPicksAction_tally_invalid userId teamIds s badName badSeed h1 h2
            (fun hh => hh h3) htally]
          refine ⟨⟨fun h => Bool.noConfusion h, ?_⟩, fun h => Bool.noConfusion h, fun _ => rfl⟩
          rintro ⟨_, _, _, hc3, hf1, _⟩
          have hcat := all_categorized (resolvedTeams s teamIds) h3res hc3 hf1
          have hcounts := tallyTeams_counts
            (s.teams.filter (fun t => teamIds.contains t.id)) [] 0 0 hfnodup hseen hcat
          rw [htally] at hcounts
          exact TallyResult.noConfusion hcounts
        | counts cCount fCount =>
          obtain ⟨hcat', hceq, hfeq⟩ :=
            tallyTeams_counts_inv (s.teams.filter (fun t => teamIds.contains t.id))
              [] 0 0 cCount fCount htally
          rw [createUserPicksAction_tally_counts userId teamIds s cCount fCount h1 h2
            (fun hh => hh h3) htally]
          by_cases h4 : cCount ≠ 3 ∨ fCount ≠ 1
          case pos =>
            rw [if_pos h4]
            refine ⟨⟨fun h => Bool.noConfusion h, ?_⟩, fun h => Bool.noConfusion h,
              fun _ => rfl⟩
            rintro ⟨_, _, _, hc3, hf1, _⟩
            have hc3' : ((s.teams.filter (fun t => teamIds.contains t.id)).filter
                (fun t => CINDERELLA_SEEDS.contains t.seed)).length = 3 := hc3
            have hf1' : ((s.teams.filter (fun t => teamIds.contains t.id)).filter
                (fun t => FAVORITE_SEEDS.contains t.seed)).length = 1 := hf1
            rcases h4 with h | h
            · exact absurd (show cCount = 3 by omega) h
            · exact absurd (show fCount = 1 by omega) h
          case neg =>
            rw [if_neg h4]
            push_neg at h4
            obtain ⟨hc3v, hf1v⟩ := h4
            obtain ⟨hnd, hres⟩ := (resolvedTeams_length_iff s teamIds hn hlen).mp h3res
            refine ⟨⟨fun _ => ?_, fun _ => rfl⟩, fun _ => ?_, fun h => Bool.noConfusion h⟩
            · refine ⟨hlen, hnd, hres, ?_, ?_, hnop⟩
              · show ((s.teams.filter (fun t => teamIds.contains t.id)).filter
                  (fun t => CINDERELLA_SEEDS.contains t.seed)).length = 3
                omega
              · show ((s.teams.filter (fun t => teamIds.contains t.id)).filter
                  (fun t => FAVORITE_SEEDS.contains t.seed)).length = 1
                omega
            · refine ⟨newPicksFor userId teamIds s, ?_, ?_, ?_⟩
              · show (List.foldl contestedStep _ _).picks = _
                rw [foldl_contestedStep_picks]
              · rw [newPicksFor, List.length_map]
                exact h3
              · intro p hp
                obtain ⟨t, _, hpe⟩ := List.mem_map.mp hp
                rw [← hpe]

/-- Concrete state for the C3 witness: teams a, b, c (cinderella seeds) and
d (favorite seed), no picks yet. -/
def pickSetupState : DBState :=
  { emptyState with
      teams := [{ id := "a", name := "a1", seed := 9 },
                { id := "b", name := "b1", seed := 10 },
                { id := "c", name := "c1", seed := 13 },
                { id := "d", name := "d1", seed := 1 }] }

/-- C3 witness: the theorem applied to user A submitting a, b, c, d. -/
theorem claim_C3_pick_validation_witness :
    (pickSetupState.teams.map (fun t => t.id)).Nodup ∧ ("A" : String) ≠ "" ∧
      (((createUserPicksAction "A" ["a", "b", "c", "d"] pickSetupState).1.isOk = true ↔
        ((["a", "b", "c", "d"] : List String).length = 4 ∧
          (["a", "b", "c", "d"] : List String).Nodup ∧
          (∀ tid ∈ (["a", "b", "c", "d"] : List String),
            ∃ t ∈ pickSetupState.teams, t.id = tid) ∧
          ((resolvedTeams pickSetupState ["a", "b", "c", "d"]).filter
            (fun t => CINDERELLA_SEEDS.contains t.seed)).length = 3 ∧
          ((resolvedTeams pickSetupState ["a", "b", "c", "d"]).filter
            (fun t => FAVORITE_SEEDS.contains t.seed)).length = 1 ∧
          (∀ p ∈ pickSetupState.picks, p.userId ≠ "A"))) ∧
      (((createUserPicksAction "A" ["a", "b", "c", "d"] pickSetupState).1.isOk = true →
        ∃ newPicks : List Pick,
          (createUserPicksAction "A" ["a", "b", "c", "d"] pickSetupState).2.picks =
            pickSetupState.picks ++ newPicks ∧
          newPicks.length = 4 ∧ ∀ p ∈ newPicks, p.userId = "A") ∧
      ((createUserPicksAction "A" ["a", "b", "c", "d"] pickSetupState).1.isOk = false →
        (createUserPicksAction "A" ["a", "b", "c", "d"] pickSetupState).2 =
          pickSetupState))) :=
  ⟨by decide, by decide,
    claim_C3_pick_validation "A" ["a", "b", "c", "d"] pickSetupState (by decide) (by decide)⟩
